import Mathlib

/-!
Verification of the classic-Bomberman core (grid, explosion propagation,
collision resolution, player movement, enemy AI, bombs, power-ups) against
its design specification.

The Python sources are modelled as executable Lean definitions:

* pixel coordinates (Python floats) become `ℚ`;
* grid coordinates (Python ints) become `ℤ`;
* in-place mutation becomes explicit state passing;
* Python sets/dicts become lists with set/dict semantics;
* `pygame.Vector2` becomes `ℚ × ℚ`; its `normalize` method (the only
  irrational operation, `v / sqrt (v.x² + v.y²)`) is abstracted as a function
  parameter `nf`, always used together with the hypothesis `NormSpec nf`
  stating that `nf` rescales its nonzero argument by some positive factor —
  exactly the property of true normalisation that the control flow depends on;
  `v.length() > 0` is modelled by the equivalent test `v ≠ (0, 0)`.
-/

/-- Tile kinds, from `constants.TileType`
(`EMPTY = 0`, `HARD_WALL = 1`, `SOFT_WALL = 2`, `EXIT = 3`). -/
inductive Tile : Type
  | empty
  | hardWall
  | softWall
  | exit
deriving DecidableEq, Repr

/-- `constants.TILE_SIZE` (pixels per grid cell). -/
def TILE_SIZE : Int := 48

/-- `constants.MAP_OFFSET_X = (800 - 13*48) // 2`. -/
def MAP_OFFSET_X : ℚ := 88

/-- `constants.MAP_OFFSET_Y = (600 - 11*48) // 2`. -/
def MAP_OFFSET_Y : ℚ := 36

/-- Grid state, from `grid.Grid.__init__`: dimensions, tile size, pixel
offsets, the 2D tile array (`tiles x y` models `self._tiles[y][x]`), the
soft-wall tracking set `_soft_walls` and the bomb occupancy set `_bombs`
(both modelled as lists with set semantics). -/
structure Grid where
  width : Int
  height : Int
  tile_size : Int
  offset_x : ℚ
  offset_y : ℚ
  tiles : Int → Int → Tile
  soft_walls : List (Int × Int)
  bombs : List (Int × Int)

/-- `Grid._clamp_grid`: clamp grid coordinates into
`[0, width-1] × [0, height-1]`. -/
def Grid.clamp_grid (g : Grid) (gx gy : Int) : Int × Int :=
  (max 0 (min gx (g.width - 1)), max 0 (min gy (g.height - 1)))

/-- `Grid.pixel_to_grid`: floor-divide by the tile size, then clamp.
Python's `//` on floats is `math.floor` of true division. -/
def Grid.pixel_to_grid (g : Grid) (px py : ℚ) : Int × Int :=
  g.clamp_grid ⌊(px - g.offset_x) / (g.tile_size : ℚ)⌋
    ⌊(py - g.offset_y) / (g.tile_size : ℚ)⌋

/-- `Grid.get_tile`: clamps, then reads the tile array. -/
def Grid.get_tile (g : Grid) (gx gy : Int) : Tile :=
  let c := g.clamp_grid gx gy
  g.tiles c.1 c.2

/-- `Grid.set_tile`: writes the tile array only when the coordinate is in
bounds; out-of-bounds writes are silently dropped. -/
def Grid.set_tile (g : Grid) (gx gy : Int) (t : Tile) : Grid :=
  if 0 ≤ gx ∧ gx < g.width ∧ 0 ≤ gy ∧ gy < g.height then
    { g with tiles := fun a b => if a = gx ∧ b = gy then t else g.tiles a b }
  else g

/-- `Grid.is_wall`: hard or soft wall (after clamping). -/
def Grid.is_wall (g : Grid) (gx gy : Int) : Bool :=
  match g.get_tile gx gy with
  | Tile.hardWall => true
  | Tile.softWall => true
  | _ => false

/-- `Grid.is_hard_wall`. -/
def Grid.is_hard_wall (g : Grid) (gx gy : Int) : Bool :=
  g.get_tile gx gy == Tile.hardWall

/-- `Grid.is_soft_wall`. -/
def Grid.is_soft_wall (g : Grid) (gx gy : Int) : Bool :=
  g.get_tile gx gy == Tile.softWall

/-- `Grid.is_empty`: walkable, i.e. `EMPTY` or `EXIT`. -/
def Grid.is_empty (g : Grid) (gx gy : Int) : Bool :=
  g.get_tile gx gy == Tile.empty || g.get_tile gx gy == Tile.exit

/-- `Grid.is_exit`. -/
def Grid.is_exit (g : Grid) (gx gy : Int) : Bool :=
  g.get_tile gx gy == Tile.exit

/-- `Grid.has_bomb`: membership in the bomb occupancy set. -/
def Grid.has_bomb (g : Grid) (gx gy : Int) : Bool :=
  g.bombs.contains (gx, gy)

/-- `Grid.add_bomb`. -/
def Grid.add_bomb (g : Grid) (gx gy : Int) : Grid :=
  { g with bombs := (gx, gy) :: g.bombs.filter (fun p => p ≠ (gx, gy)) }

/-- `Grid.remove_bomb` (`set.discard`). -/
def Grid.remove_bomb (g : Grid) (gx gy : Int) : Grid :=
  { g with bombs := g.bombs.filter (fun p => p ≠ (gx, gy)) }

/-- `Grid.is_valid_grid`: the bounds check `0 <= x < width and 0 <= y < height`. -/
def Grid.is_valid_grid (g : Grid) (gx gy : Int) : Bool :=
  decide (0 ≤ gx ∧ gx < g.width ∧ 0 ≤ gy ∧ gy < g.height)

/-- `Grid.can_place_bomb`: empty tile without a bomb. -/
def Grid.can_place_bomb (g : Grid) (gx gy : Int) : Bool :=
  g.is_empty gx gy && !(g.has_bomb gx gy)

/-- `Grid.destroy_soft_wall`: returns the updated grid and the success flag.
On a soft-wall tile the tile becomes `EXIT` when `(gx, gy)` coincides with
the (optional) exit position, else `EMPTY`, and the coordinate is discarded
from `_soft_walls`; otherwise the grid is returned untouched with `False`.
(`exit_pos` is an optional tuple; Python's `if exit_pos` truthiness is
`Option.isSome` since a present coordinate pair is a non-empty tuple.) -/
def Grid.destroy_soft_wall (g : Grid) (gx gy : Int)
    (exit_pos : Option (Int × Int)) : Grid × Bool :=
  if g.is_soft_wall gx gy then
    let g1 :=
      match exit_pos with
      | some e =>
          if gx = e.1 ∧ gy = e.2 then g.set_tile gx gy Tile.exit
          else g.set_tile gx gy Tile.empty
      | none => g.set_tile gx gy Tile.empty
    ({ g1 with soft_walls := g1.soft_walls.filter (fun p => p ≠ (gx, gy)) },
      true)
  else (g, false)

/-- The inner per-direction loop of `Grid.get_explosion_tiles`: walk outward
from step index `i` with `steps` loop iterations remaining; stop (excluding
the tile) at an out-of-bounds tile or a hard wall, include a soft wall and
stop, otherwise include the tile and continue. -/
def Grid.explosion_arm (g : Grid) (cx cy dx dy : Int) : Nat → Nat → List (Int × Int)
  | _, 0 => []
  | i, steps + 1 =>
    let tx := cx + dx * (i : Int)
    let ty := cy + dy * (i : Int)
    if !(g.is_valid_grid tx ty) then []
    else if g.get_tile tx ty = Tile.hardWall then []
    else
      (tx, ty) ::
        (if g.get_tile tx ty = Tile.softWall then []
         else g.explosion_arm cx cy dx dy (i + 1) steps)

/-- `Grid.get_explosion_tiles`: the centre tile followed by the four arms,
in the source's direction order `[(0,1), (0,-1), (1,0), (-1,0)]`. -/
def Grid.get_explosion_tiles (g : Grid) (cx cy : Int) (power : Nat) :
    List (Int × Int) :=
  (cx, cy) ::
    (g.explosion_arm cx cy 0 1 1 power ++ g.explosion_arm cx cy 0 (-1) 1 power ++
      g.explosion_arm cx cy 1 0 1 power ++ g.explosion_arm cx cy (-1) 0 1 power)

/-! ## Collision system (`collision.py`) -/

/-- The positive-rescaling property of `pygame.Vector2.normalize`: it maps a
nonzero vector to a positive scalar multiple of itself (namely `1 / ‖v‖ • v`).
All control flow in the sources depends only on this property. -/
def NormSpec (nf : ℚ × ℚ → ℚ × ℚ) : Prop :=
  ∀ v : ℚ × ℚ, v ≠ (0, 0) → ∃ c : ℚ, 0 < c ∧ nf v = (c * v.1, c * v.2)

/-- `helpers.clamp`. -/
def clamp (value min_value max_value : ℚ) : ℚ :=
  max min_value (min value max_value)

/-- `collision.CollisionInfo`: collision type code (`constants.CollisionType`:
`NONE = 0`, `WALL = 1`, `BOMB = 2`), direction, position and tile. -/
structure CollisionInfo where
  ctype : Nat
  direction : ℚ × ℚ
  position : ℚ × ℚ
  tile_pos : Int × Int
deriving DecidableEq, Repr

/-- The default `CollisionInfo()` (no collision). -/
def CollisionInfo.noneInfo : CollisionInfo :=
  ⟨0, (0, 0), (0, 0), (-1, -1)⟩

/-- `CollisionSystem._circle_overlaps_tile`: closest-point-on-rectangle
distance test, strict inequality against the squared radius. -/
def circle_overlaps_tile (g : Grid) (cx cy radius : ℚ) (tile_x tile_y : Int) :
    Bool :=
  let tile_px := g.offset_x + (tile_x * g.tile_size : Int)
  let tile_py := g.offset_y + (tile_y * g.tile_size : Int)
  let closest_x := max tile_px (min cx (tile_px + (g.tile_size : ℚ)))
  let closest_y := max tile_py (min cy (tile_py + (g.tile_size : ℚ)))
  let dist_x := cx - closest_x
  let dist_y := cy - closest_y
  decide (dist_x * dist_x + dist_y * dist_y < radius * radius)

/-- `CollisionSystem._create_wall_collision`.  The `TILE_SIZE` upper bound in
the clamp is the global constant, exactly as in the source. -/
def create_wall_collision (g : Grid) (nf : ℚ × ℚ → ℚ × ℚ)
    (center_x center_y _radius : ℚ) (wall_x wall_y : Int) : CollisionInfo :=
  let wall_pixel_x := g.offset_x + (wall_x * g.tile_size : Int)
  let wall_pixel_y := g.offset_y + (wall_y * g.tile_size : Int)
  let closest_x := clamp center_x wall_pixel_x (wall_pixel_x + (TILE_SIZE : ℚ))
  let closest_y := clamp center_y wall_pixel_y (wall_pixel_y + (TILE_SIZE : ℚ))
  let d := (center_x - closest_x, center_y - closest_y)
  let direction := if d ≠ ((0 : ℚ), (0 : ℚ)) then nf d else d
  ⟨1, direction, (closest_x, closest_y), (wall_x, wall_y)⟩

/-- The neighbour loop of `CollisionSystem.check_circle_to_grid`: skip
out-of-bounds neighbours; a wall neighbour that the circle overlaps yields a
wall collision; otherwise a bomb-occupied neighbour yields a bomb collision
(note: without any overlap test, exactly as in the source). -/
def check_neighbor_tiles (g : Grid) (nf : ℚ × ℚ → ℚ × ℚ)
    (center_x center_y radius : ℚ) (check_bombs : Bool) :
    List (Int × Int) → CollisionInfo
  | [] => CollisionInfo.noneInfo
  | (nx, ny) :: rest =>
    if !(g.is_valid_grid nx ny) then
      check_neighbor_tiles g nf center_x center_y radius check_bombs rest
    else if g.is_wall nx ny && circle_overlaps_tile g center_x center_y radius nx ny then
      create_wall_collision g nf center_x center_y radius nx ny
    else if check_bombs && g.has_bomb nx ny then
      ⟨2, (0, 0), (center_x, center_y), (nx, ny)⟩
    else
      check_neighbor_tiles g nf center_x center_y radius check_bombs rest

/-- `CollisionSystem.check_circle_to_grid`: current tile wall test, current
tile bomb test, then the four neighbours in source order
(left, right, up, down). -/
def check_circle_to_grid (g : Grid) (nf : ℚ × ℚ → ℚ × ℚ)
    (center_x center_y radius : ℚ) (check_bombs : Bool := true) :
    CollisionInfo :=
  let gp := g.pixel_to_grid center_x center_y
  if g.is_wall gp.1 gp.2 then
    create_wall_collision g nf center_x center_y radius gp.1 gp.2
  else if check_bombs && g.has_bomb gp.1 gp.2 then
    ⟨2, (0, 0), (center_x, center_y), gp⟩
  else
    check_neighbor_tiles g nf center_x center_y radius check_bombs
      [(gp.1 - 1, gp.2), (gp.1 + 1, gp.2), (gp.1, gp.2 - 1), (gp.1, gp.2 + 1)]

/-- `CollisionSystem.predict_position`: on any collision at the displaced
position, stay put and report the collision flag. -/
def predict_position (g : Grid) (nf : ℚ × ℚ → ℚ × ℚ)
    (current_pos velocity : ℚ × ℚ) (radius : ℚ) (check_bombs : Bool := true) :
    (ℚ × ℚ) × Bool :=
  let new_x := current_pos.1 + velocity.1
  let new_y := current_pos.2 + velocity.2
  let collision := check_circle_to_grid g nf new_x new_y radius check_bombs
  if collision.ctype ≠ 0 then (current_pos, true) else ((new_x, new_y), false)

/-- `CollisionSystem.resolve_collision`: axis-decomposed sliding.  Returns the
adjusted position and the collision normal.  Mirrors the source exactly:
`test_x`/`test_y` fall back to the original coordinate when the corresponding
axis-only move is blocked, and `collision_x`/`collision_y` re-test at
`(test_x, position.y)` / `(position.x, test_y)`. -/
def resolve_collision (g : Grid) (nf : ℚ × ℚ → ℚ × ℚ)
    (position velocity : ℚ × ℚ) (radius : ℚ) (check_bombs : Bool := true) :
    (ℚ × ℚ) × (ℚ × ℚ) :=
  let pr := predict_position g nf position velocity radius check_bombs
  let new_x := pr.1.1
  let new_y := pr.1.2
  if pr.2 then
    let test_x := (predict_position g nf position (velocity.1, 0) radius check_bombs).1.1
    let test_y := (predict_position g nf position (0, velocity.2) radius check_bombs).1.2
    let collision_x := check_circle_to_grid g nf test_x position.2 radius check_bombs
    let collision_y := check_circle_to_grid g nf position.1 test_y radius check_bombs
    if collision_x.ctype = 0 ∧ collision_y.ctype ≠ 0 then
      ((test_x, new_y), if velocity.1 > 0 then ((1 : ℚ), (0 : ℚ)) else (-1, 0))
    else if collision_x.ctype ≠ 0 ∧ collision_y.ctype = 0 then
      ((new_x, test_y), if velocity.2 > 0 then ((0 : ℚ), (1 : ℚ)) else (0, -1))
    else if collision_x.ctype = 0 ∧ collision_y.ctype = 0 then
      ((test_x, test_y), (0, 0))
    else
      (position,
        if velocity ≠ ((0 : ℚ), (0 : ℚ)) then (-(nf velocity).1, -(nf velocity).2)
        else (0, 0))
  else ((new_x, new_y), (0, 0))

/-! ## Player movement (`player.Player._update_movement`) -/

/-- `constants.PLAYER_SPEED_DEFAULT`. -/
def PLAYER_SPEED_DEFAULT : ℚ := 150

/-- `constants.INITIAL_BOMB_POWER`. -/
def INITIAL_BOMB_POWER : Int := 1

/-- `constants.INITIAL_BOMB_COUNT`. -/
def INITIAL_BOMB_COUNT : Int := 1

/-- The movement core of `Player._update_movement`, given the player's pixel
position, current grid tile, normalised-then-rescaled input, and collision
radius.  Walls block an axis via `check_circle_to_grid(...).type == WALL`;
bombs block both moving axes only when the player is not itself standing on a
bomb tile and the (full-displacement) destination tile holds a bomb.  Returns
the new pixel position and the new grid tile. -/
def player_update_movement (g : Grid) (nf : ℚ × ℚ → ℚ × ℚ)
    (position : ℚ × ℚ) (grid_pos : Int × Int) (input_direction : ℚ × ℚ)
    (speed dt radius : ℚ) : (ℚ × ℚ) × (Int × Int) :=
  let actual_speed := speed * dt
  let mv0 := (input_direction.1 * actual_speed, input_direction.2 * actual_speed)
  if mv0 ≠ ((0 : ℚ), (0 : ℚ)) then
    let n := nf mv0
    let move_vector := (n.1 * actual_speed, n.2 * actual_speed)
    let on_bomb := g.has_bomb grid_pos.1 grid_pos.2
    let new_x := position.1 + move_vector.1
    let new_y := position.2 + move_vector.2
    let ng := g.pixel_to_grid new_x new_y
    let collision_x := check_circle_to_grid g nf new_x position.2 (radius * (4 / 5)) true
    let collision_y := check_circle_to_grid g nf position.1 new_y (radius * (4 / 5)) true
    let can_move_x := collision_x.ctype != 1
    let can_move_y := collision_y.ctype != 1
    let bomb_block := !on_bomb && g.has_bomb ng.1 ng.2
    let can_move_x2 := if bomb_block && decide (move_vector.1 ≠ 0) then false else can_move_x
    let can_move_y2 := if bomb_block && decide (move_vector.2 ≠ 0) then false else can_move_y
    let px := if can_move_x2 then new_x else position.1
    let py := if can_move_y2 then new_y else position.2
    let ng2 := g.pixel_to_grid px py
    let gp := if g.is_valid_grid ng2.1 ng2.2 then ng2 else grid_pos
    ((px, py), gp)
  else (position, grid_pos)

/-! ## Explosions and threat analysis (`explosion.py`, `ai.py`) -/

/-- `Explosion.check_hit_position` for an explosion with tile footprint
`tiles`: the query point is within `radius + TILE_SIZE // 2` of some covered
tile's centre (tile centres are computed from the global `TILE_SIZE` plus the
`offset_x`/`offset_y` arguments, which default to `0`). -/
def explosion_check_hit_position (tiles : List (Int × Int))
    (pixel_x pixel_y radius : ℚ) (offset_x offset_y : ℚ) : Bool :=
  tiles.any fun t =>
    let center_x : ℚ := ((t.1 * TILE_SIZE + TILE_SIZE / 2 : Int) : ℚ) + offset_x
    let center_y : ℚ := ((t.2 * TILE_SIZE + TILE_SIZE / 2 : Int) : ℚ) + offset_y
    let dist_sq := (pixel_x - center_x) ^ 2 + (pixel_y - center_y) ^ 2
    decide (dist_sq < (radius + ((TILE_SIZE / 2 : Int) : ℚ)) ^ 2)

/-- `ExplosionManager.check_any_hit_position` over the footprints of all
registered explosions (an explosion manager is modelled by the list of its
explosions' tile footprints). -/
def check_any_hit_position (explosions : List (List (Int × Int)))
    (pixel_x pixel_y radius : ℚ) (offset_x offset_y : ℚ) : Bool :=
  explosions.any fun tiles =>
    explosion_check_hit_position tiles pixel_x pixel_y radius offset_x offset_y

/-- `ThreatAnalyzer._is_tile_safe`: the tile centre (shifted by the grid's
pixel offsets) must not be hit by any explosion — note the call site passes
no offsets to `check_any_hit_position`, so the explosion tile centres are
*not* shifted — and none of the four neighbour tiles may hold a bomb. -/
def is_tile_safe (g : Grid) (explosions : List (List (Int × Int)))
    (grid_x grid_y : Int) : Bool :=
  if check_any_hit_position explosions
      (((grid_x * g.tile_size + g.tile_size / 2 : Int) : ℚ) + g.offset_x)
      (((grid_y * g.tile_size + g.tile_size / 2 : Int) : ℚ) + g.offset_y)
      ((g.tile_size / 2 : Int) : ℚ) 0 0 then
    false
  else if ([(0, 1), (0, -1), (1, 0), (-1, 0)] : List (Int × Int)).any
      (fun d => g.has_bomb (grid_x + d.1) (grid_y + d.2)) then
    false
  else true

/-- `ThreatAnalyzer.get_safe_tiles`: all safe tiles, scanned with `x` as the
outer loop and `y` as the inner loop. -/
def get_safe_tiles (g : Grid) (explosions : List (List (Int × Int))) :
    List (Int × Int) :=
  ((List.range g.width.toNat).map fun x =>
    ((List.range g.height.toNat).filter
        (fun y => is_tile_safe g explosions (x : Int) (y : Int))).map
      fun y => ((x : Int), (y : Int))).flatten

/-- `ThreatAnalyzer.find_nearest_safe_tile`: linear scan keeping the first
tile that strictly improves the Manhattan distance. -/
def find_nearest_safe_tile (g : Grid) (explosions : List (List (Int × Int)))
    (start : Int × Int) : Option (Int × Int) :=
  ((get_safe_tiles g explosions).foldl
    (fun acc tile =>
      let dist := (tile.1 - start.1).natAbs + (tile.2 - start.2).natAbs
      match acc with
      | none => some (tile, dist)
      | some (_, min_dist) =>
          if dist < min_dist then some (tile, dist) else acc)
    none).map Prod.fst

/-- `ThreatAnalyzer.get_escape_direction`: `None` when no safe tile exists at
all; otherwise a unit axis step toward the nearest safe tile, the axis with
the strictly larger `|delta|` winning and ties going to the y axis. -/
def get_escape_direction (g : Grid) (explosions : List (List (Int × Int)))
    (current_pos : Int × Int) : Option (ℚ × ℚ) :=
  match find_nearest_safe_tile g explosions current_pos with
  | none => none
  | some safe_tile =>
    let dx := safe_tile.1 - current_pos.1
    let dy := safe_tile.2 - current_pos.2
    if dx.natAbs > dy.natAbs then
      some (if dx > 0 then ((1 : ℚ), (0 : ℚ)) else (-1, 0))
    else
      some ((0 : ℚ), if dy > 0 then (1 : ℚ) else -1)

/-- The threat-avoidance override at the top of
`SmartEnemyAI.get_movement_direction`: `escape_dir` is returned (and
chase/wander skipped) exactly when `get_escape_direction` yields a vector,
since every vector it yields is a nonzero axis step and hence truthy for
`pygame.Vector2.__bool__`. -/
def smart_escape_override (g : Grid) (explosions : List (List (Int × Int)))
    (enemy_pos : Int × Int) : Option (ℚ × ℚ) :=
  get_escape_direction g explosions enemy_pos

/-! ## A* pathfinder (`ai.AStarPathfinder`) -/

/-- `AStarPathfinder._heuristic`: Manhattan distance. -/
def heuristic (a b : Int × Int) : Nat :=
  (a.1 - b.1).natAbs + (a.2 - b.2).natAbs

/-- `AStarPathfinder._get_neighbors`: in-bounds, walkable
(`EMPTY`/`EXIT`) neighbours, skipping bomb tiles when `avoid_bombs`;
direction order `[(0,1), (0,-1), (1,0), (-1,0)]`. -/
def astar_get_neighbors (g : Grid) (pos : Int × Int) (avoid_bombs : Bool) :
    List (Int × Int) :=
  ([(0, 1), (0, -1), (1, 0), (-1, 0)] : List (Int × Int)).filterMap fun d =>
    let nx := pos.1 + d.1
    let ny := pos.2 + d.2
    if !(g.is_valid_grid nx ny) then none
    else if g.is_empty nx ny then
      if avoid_bombs && g.has_bomb nx ny then none else some (nx, ny)
    else none

/-- `heapq` orders its `(priority, (x, y))` tuples lexicographically; this is
that total order as a Boolean relation. -/
def entry_le (a b : Nat × Int × Int) : Bool :=
  decide (a.1 < b.1) ||
    (a.1 == b.1 && (decide (a.2.1 < b.2.1) ||
      (a.2.1 == b.2.1 && decide (a.2.2 ≤ b.2.2))))

/-- `heappop`: remove and return the least entry of the frontier (for the
empty frontier, `none`; equal tuples are identical, so which duplicate is
removed is immaterial). -/
def heap_pop (l : List (Nat × Int × Int)) :
    Option ((Nat × Int × Int) × List (Nat × Int × Int)) :=
  match l with
  | [] => none
  | e :: rest =>
    let m := rest.foldl (fun acc x => if entry_le acc x then acc else x) e
    some (m, l.erase m)

/-- Python dict assignment `d[k] = v`, on an association list kept free of
duplicate keys. -/
def dict_insert {β : Type} (k : Int × Int) (v : β)
    (d : List ((Int × Int) × β)) : List ((Int × Int) × β) :=
  (k, v) :: d.filter (fun p => !(p.1 == k))

/-- The mutable state of `AStarPathfinder.find_path`: the priority queue and
the `came_from` / `cost_so_far` dicts. -/
structure AStarState where
  frontier : List (Nat × Int × Int)
  came_from : List ((Int × Int) × Option (Int × Int))
  cost_so_far : List ((Int × Int) × Nat)

/-- The loop body of `AStarPathfinder._reconstruct_path`: walk the
`came_from` chain from `goal` back to `start`, accumulating and finally
reversing.  A missing key (Python would raise `KeyError`; unreachable from
`find_path`) and a `None` parent both yield `[]`.  The fuel argument bounds
the chain length; `find_path` passes `came_from.length + 1`, enough for any
repetition-free chain. -/
def reconstruct_go (came_from : List ((Int × Int) × Option (Int × Int)))
    (start : Int × Int) : Int × Int → List (Int × Int) → Nat → List (Int × Int)
  | _, _, 0 => []
  | current, path, fuel + 1 =>
    if current = start then path.reverse
    else
      match came_from.lookup current with
      | none => []
      | some none => []
      | some (some p) => reconstruct_go came_from start p (path ++ [p]) fuel

/-- `AStarPathfinder._reconstruct_path`. -/
def reconstruct_path (came_from : List ((Int × Int) × Option (Int × Int)))
    (start goal : Int × Int) : List (Int × Int) :=
  reconstruct_go came_from start goal [goal] (came_from.length + 1)

/-- The `while frontier:` loop of `AStarPathfinder.find_path`, with an
explicit fuel so the definition is total: `none` means fuel ran out (never
happens for the fuel chosen in `find_path`, as proved below), `some none`
means the frontier emptied without reaching the goal, `some (some p)` means
the goal was popped and reconstructed to `p`. -/
def astar_loop (g : Grid) (goal : Int × Int) (avoid_bombs : Bool)
    (start : Int × Int) : Nat → AStarState → Option (Option (List (Int × Int)))
  | 0, _ => none
  | fuel + 1, st =>
    match heap_pop st.frontier with
    | none => some none
    | some (e, rest) =>
      let current := e.2
      if current = goal then
        some (some (reconstruct_path st.came_from start goal))
      else
        let st1 := (astar_get_neighbors g current avoid_bombs).foldl
          (fun s next_pos =>
            let new_cost := ((s.cost_so_far.lookup current).getD 0) + 1
            let improve :=
              match s.cost_so_far.lookup next_pos with
              | none => true
              | some c => decide (new_cost < c)
            if improve then
              { frontier := (new_cost + heuristic goal next_pos, next_pos) :: s.frontier,
                came_from := dict_insert next_pos (some current) s.came_from,
                cost_so_far := dict_insert next_pos new_cost s.cost_so_far }
            else s)
          { st with frontier := rest }
        astar_loop g goal avoid_bombs start fuel st1

/-- Fuel that dominates the number of loop iterations of `find_path` on grid
`g` (proved sufficient below): the loop's potential — frontier length plus
the summed cost bounds of all cells — never exceeds this. -/
def astar_fuel (g : Grid) : Nat :=
  let N := g.width.toNat * g.height.toNat
  (N + 1) * (N + 2) + 2

/-- `AStarPathfinder.find_path`: runs the loop from the initial state
(`frontier = [(0, start)]`, `came_from = {start: None}`,
`cost_so_far = {start: 0}`). -/
def find_path (g : Grid) (start goal : Int × Int)
    (avoid_bombs : Bool := true) : Option (List (Int × Int)) :=
  let st0 : AStarState :=
    { frontier := [(0, start)], came_from := [(start, none)],
      cost_so_far := [(start, 0)] }
  match astar_loop g goal avoid_bombs start (astar_fuel g) st0 with
  | some r => r
  | none => none

/-! ## Timers, bombs, power-ups (`helpers.py`, `bomb.py`, `powerup.py`) -/

/-- `helpers.Timer`. -/
structure Timer where
  duration : ℚ
  elapsed : ℚ
  paused : Bool
deriving DecidableEq, Repr

/-- `Timer.__init__(duration)`. -/
def Timer.mk0 (duration : ℚ) : Timer := ⟨duration, 0, false⟩

/-- `Timer.update`: advance unless paused; report expiry. -/
def Timer.update (t : Timer) (dt : ℚ) : Timer × Bool :=
  let t' := if t.paused then t else { t with elapsed := t.elapsed + dt }
  (t', decide (t'.elapsed ≥ t'.duration))

/-- `constants.BOMB_FUSE_TIME` (seconds). -/
def BOMB_FUSE_TIME : ℚ := 2

/-- `constants.BOMB_ANIMATION_SPEED`. -/
def BOMB_ANIMATION_SPEED : ℚ := 1 / 10

/-- `bomb.Bomb`: position, power, fuse timer, animation timer and the
`_exploded` / `_triggered` flags plus the frozen `_explosion_tiles`. -/
structure Bomb where
  grid_x : Int
  grid_y : Int
  power : Nat
  owner_id : Option Int
  fuse_timer : Timer
  animation_timer : ℚ
  exploded : Bool
  triggered : Bool
  explosion_tiles : List (Int × Int)

/-- `Bomb.__init__`. -/
def Bomb.mkBomb (grid_x grid_y : Int) (power : Nat) (fuse_time : ℚ)
    (owner_id : Option Int) : Bomb :=
  ⟨grid_x, grid_y, power, owner_id, Timer.mk0 fuse_time, 0, false, false, []⟩

/-- `Bomb.trigger`. -/
def Bomb.trigger (b : Bomb) : Bomb := { b with triggered := true }

/-- `Bomb.explode`: a no-op on an already-exploded bomb; otherwise set
`_exploded`, freeze the explosion tile-set computed from the grid state at
this moment, and deregister the bomb from the grid's bomb occupancy set. -/
def Bomb.explode (b : Bomb) (g : Grid) : Bomb × Grid :=
  if b.exploded then (b, g)
  else
    ({ b with
        exploded := true,
        explosion_tiles := g.get_explosion_tiles b.grid_x b.grid_y b.power },
      g.remove_bomb b.grid_x b.grid_y)

/-- `Bomb.update`: a no-op on an exploded bomb; otherwise advance the
animation and fuse timers and explode when the fuse has elapsed or the bomb
was externally triggered. -/
def Bomb.update (b : Bomb) (dt : ℚ) (g : Grid) : Bomb × Grid :=
  if b.exploded then (b, g)
  else
    let anim := b.animation_timer + dt
    let anim2 := if anim ≥ BOMB_ANIMATION_SPEED * 4 then 0 else anim
    let ft := (b.fuse_timer.update dt).1
    let b1 := { b with animation_timer := anim2, fuse_timer := ft }
    if b1.fuse_timer.elapsed ≥ b1.fuse_timer.duration ∨ b1.triggered then
      b1.explode g
    else (b1, g)

/-- `constants.PowerupType`. -/
inductive PowerupType : Type
  | fire_increase
  | bomb_increase
  | speed_increase
deriving DecidableEq, Repr

/-- `powerup.PowerupEffect`: type, optional expiry timer, active flag and the
three bonus fields set by `_apply_effect` (`+1` fire, `+1` bomb, `×1.2`
speed). -/
structure PowerupEffect where
  ptype : PowerupType
  duration : ℚ
  timer : Option Timer
  active : Bool
  fire_bonus : Int
  bomb_bonus : Int
  speed_multiplier : ℚ
deriving DecidableEq, Repr

/-- `PowerupEffect.__init__` followed by `_apply_effect`. -/
def PowerupEffect.mkEffect (t : PowerupType) (duration : ℚ := 0) :
    PowerupEffect :=
  { ptype := t,
    duration := duration,
    timer := if duration > 0 then some (Timer.mk0 duration) else none,
    active := true,
    fire_bonus := if t = PowerupType.fire_increase then 1 else 0,
    bomb_bonus := if t = PowerupType.bomb_increase then 1 else 0,
    speed_multiplier := if t = PowerupType.speed_increase then 6 / 5 else 1 }

/-- `PowerupEffect.update`: advance the timer (when present); on expiry clear
`active` and undo this effect's own bonus field (`_remove_effect`). -/
def PowerupEffect.update (e : PowerupEffect) (dt : ℚ) : PowerupEffect :=
  match e.timer with
  | none => e
  | some t =>
    let t' := (t.update dt).1
    if t'.elapsed ≥ t'.duration then
      { e with
        timer := some t',
        active := false,
        fire_bonus := if e.ptype = PowerupType.fire_increase then 0 else e.fire_bonus,
        bomb_bonus := if e.ptype = PowerupType.bomb_increase then 0 else e.bomb_bonus,
        speed_multiplier :=
          if e.ptype = PowerupType.speed_increase then 1 else e.speed_multiplier }
    else { e with timer := some t' }

/-- `PowerupManager.get_total_bonus`: additive fire/bomb bonuses,
multiplicative speed bonus, accumulated left-to-right over the active effect
list; result `(fire_bonus, bomb_bonus, speed_multiplier)`. -/
def get_total_bonus (effects : List PowerupEffect) : Int × Int × ℚ :=
  effects.foldl
    (fun tot e =>
      (tot.1 + e.fire_bonus, tot.2.1 + e.bomb_bonus, tot.2.2 * e.speed_multiplier))
    (0, 0, 1)

/-- The effect-updating half of `PowerupManager.update`: update every effect,
drop the inactive ones. -/
def powerup_manager_update_effects (effects : List PowerupEffect) (dt : ℚ) :
    List PowerupEffect :=
  (effects.map (fun e => e.update dt)).filter (fun e => e.active)

/-- The per-tick stat recomputation in `Player.update`:
`bomb_count = INITIAL_BOMB_COUNT + bomb_bonus`,
`bomb_power = INITIAL_BOMB_POWER + fire_bonus`,
`speed = PLAYER_SPEED_DEFAULT * speed_multiplier`; the result triple is
`(bomb_count, bomb_power, speed)`. -/
def player_apply_bonuses (bonuses : Int × Int × ℚ) : Int × Int × ℚ :=
  (INITIAL_BOMB_COUNT + bonuses.2.1, INITIAL_BOMB_POWER + bonuses.1,
    PLAYER_SPEED_DEFAULT * bonuses.2.2)

/-! ## Concrete scenarios used by witnesses and counterexamples -/

/-- A concrete instance of the abstract normalisation parameter: exact on
axis-aligned vectors (where `pygame.Vector2.normalize` returns a unit axis
vector) and the identity on other nonzero vectors; satisfies `NormSpec`. -/
def axisUnit (v : ℚ × ℚ) : ℚ × ℚ :=
  if v.1 = 0 ∧ v.2 = 0 then (0, 0)
  else if v.2 = 0 then (if v.1 > 0 then (1, 0) else (-1, 0))
  else if v.1 = 0 then (0, if v.2 > 0 then 1 else -1)
  else v

/-- An all-empty grid with zero pixel offsets, standard tile size. -/
def openGrid (w h : Int) : Grid :=
  { width := w, height := h, tile_size := 48, offset_x := 0, offset_y := 0,
    tiles := fun _ _ => Tile.empty, soft_walls := [], bombs := [] }

/-- 7×7 grid with a hard wall at `(3,1)` (two tiles above the centre `(3,3)`)
and a soft wall at `(5,3)` (two tiles to its right). -/
def wallsGrid : Grid :=
  { openGrid 7 7 with
    tiles := fun x y =>
      if x = 3 ∧ y = 1 then Tile.hardWall
      else if x = 5 ∧ y = 3 then Tile.softWall
      else Tile.empty }

/-- 3×3 grid with hard walls at `(2,1)` (right of centre) and `(1,2)` (below
centre): a fully blocking corner for an entity at the centre tile. -/
def cornerGrid : Grid :=
  { openGrid 3 3 with
    tiles := fun x y =>
      if x = 2 ∧ y = 1 then Tile.hardWall
      else if x = 1 ∧ y = 2 then Tile.hardWall
      else Tile.empty }

/-- 3×3 grid with a single hard wall at `(2,1)` (right of centre): blocks the
x axis only. -/
def slideGrid : Grid :=
  { openGrid 3 3 with
    tiles := fun x y => if x = 2 ∧ y = 1 then Tile.hardWall else Tile.empty }

/-- 5×3 empty grid with bombs on the two adjacent tiles `(1,1)` and `(2,1)`. -/
def twoBombGrid : Grid :=
  { openGrid 5 3 with bombs := [(1, 1), (2, 1)] }

/-- 5×3 empty grid with a single bomb on `(2,1)`. -/
def oneBombGrid : Grid :=
  { openGrid 5 3 with bombs := [(2, 1)] }

/-- 5×4 all-empty grid with the game's real pixel offsets
(`MAP_OFFSET_X = 88`, `MAP_OFFSET_Y = 36`): no walls, no bombs. -/
def safeFieldGrid : Grid :=
  { openGrid 5 4 with offset_x := 88, offset_y := 36 }

/-- 6×3 grid whose only walkable tiles form the horizontal corridor
`(1,1) … (4,1)`. -/
def corridorGrid : Grid :=
  { openGrid 6 3 with
    tiles := fun x y =>
      if y = 1 ∧ 1 ≤ x ∧ x ≤ 4 then Tile.empty else Tile.hardWall }

/-- 6×3 grid whose only walkable tiles are `(1,1)` and `(2,1)`; the tile
`(4,1)` is fully walled off. -/
def blockedGoalGrid : Grid :=
  { openGrid 6 3 with
    tiles := fun x y =>
      if (x = 1 ∨ x = 2) ∧ y = 1 then Tile.empty else Tile.hardWall }

/-- Pass-through condition for one step of an explosion arm: the tile at
step index `j` is in bounds and neither a hard nor a soft wall, so the walk
includes it and continues. -/
def arm_pass (g : Grid) (cx cy dx dy : Int) (j : Nat) : Prop :=
  g.is_valid_grid (cx + dx * (j : Int)) (cy + dy * (j : Int)) = true ∧
  g.get_tile (cx + dx * (j : Int)) (cy + dy * (j : Int)) ≠ Tile.hardWall ∧
  g.get_tile (cx + dx * (j : Int)) (cy + dy * (j : Int)) ≠ Tile.softWall

/-- Inclusion condition for the tile at step index `k` of an explosion arm:
in bounds and not a hard wall (soft walls are included, then stop the arm). -/
def arm_incl (g : Grid) (cx cy dx dy : Int) (k : Nat) : Prop :=
  g.is_valid_grid (cx + dx * (k : Int)) (cy + dy * (k : Int)) = true ∧
  g.get_tile (cx + dx * (k : Int)) (cy + dy * (k : Int)) ≠ Tile.hardWall

instance (g : Grid) (cx cy dx dy : Int) (j : Nat) :
    Decidable (arm_pass g cx cy dx dy j) := by
  unfold arm_pass; infer_instance

instance (g : Grid) (cx cy dx dy : Int) (k : Nat) :
    Decidable (arm_incl g cx cy dx dy k) := by
  unfold arm_incl; infer_instance

/-- Reference (spec-side) membership condition for an explosion arm of power
`p` in direction `(dx, dy)`: the tile at step `k` (with `1 ≤ k ≤ p`) is
included exactly when every strictly earlier step was passed through and the
step-`k` tile itself is in bounds and not a hard wall. -/
def arm_mem_spec (g : Grid) (cx cy dx dy : Int) (p : Nat) (t : Int × Int) :
    Prop :=
  ∃ k : Nat, 1 ≤ k ∧ k ≤ p ∧
    (∀ j : Nat, 1 ≤ j → j < k → arm_pass g cx cy dx dy j) ∧
    arm_incl g cx cy dx dy k ∧
    t = (cx + dx * (k : Int), cy + dy * (k : Int))

/-- A tile the A* neighbour generator accepts: in bounds, walkable, and (when
avoiding bombs) bomb-free — the exact acceptance test of
`AStarPathfinder._get_neighbors`. -/
def accessible (g : Grid) (avoid_bombs : Bool) (n : Int × Int) : Bool :=
  g.is_valid_grid n.1 n.2 && g.is_empty n.1 n.2 &&
    !(avoid_bombs && g.has_bomb n.1 n.2)

/-- Reachability in the A* search graph: the reflexive-transitive closure of
the neighbour relation, from `start`. -/
inductive ReachableFrom (g : Grid) (avoid_bombs : Bool) (start : Int × Int) :
    Int × Int → Prop
  | refl : ReachableFrom g avoid_bombs start start
  | step : ∀ {a b : Int × Int}, ReachableFrom g avoid_bombs start a →
      b ∈ astar_get_neighbors g a avoid_bombs →
      ReachableFrom g avoid_bombs start b

/-- The `k`-th cell of the straight corridor from `s` in direction `u`. -/
def cpos (s u : Int × Int) (k : Nat) : Int × Int :=
  (s.1 + u.1 * (k : Int), s.2 + u.2 * (k : Int))

/-- The straight path of `d + 1` tiles from `start` in unit direction `u`. -/
def corridor_path (start u : Int × Int) (d : Nat) : List (Int × Int) :=
  (List.range (d + 1)).map (cpos start u)

/-- The `cost_so_far` dictionary after the A* loop has expanded the first
`k + 1` cells of a straight corridor: cell `i` carries cost `i`, most
recently inserted first. -/
def corridor_cs (s u : Int × Int) (k : Nat) : List ((Int × Int) × Nat) :=
  ((List.range (k + 1)).reverse).map fun i => (cpos s u i, i)

/-- The matching `came_from` dictionary: each corridor cell points to its
predecessor, the start cell to `None`. -/
def corridor_cf (s u : Int × Int) (k : Nat) :
    List ((Int × Int) × Option (Int × Int)) :=
  ((List.range (k + 1)).reverse).map fun i =>
    (cpos s u i, if i = 0 then none else some (cpos s u (i - 1)))

/-- Certificate that a stored A* cost is attainable: a repetition-free chain
of neighbour steps from `n` back to `start` of length `c`, whose every node
carries a stored cost at most `c` minus its chain index.  Every value
`find_path` ever stores in `cost_so_far` satisfies this, which bounds all
stored costs by the number of stored keys. -/
def cost_chain (g : Grid) (avoid_bombs : Bool) (start : Int × Int)
    (cs : List ((Int × Int) × Nat)) (n : Int × Int) (c : Nat) : Prop :=
  ∃ l : List (Int × Int), l.length = c + 1 ∧ l.head? = some n ∧
    l.getLast? = some start ∧ l.Nodup ∧
    l.Chain' (fun a b => a ∈ astar_get_neighbors g b avoid_bombs) ∧
    ∀ i : Fin l.length, ∃ ci, List.lookup (l.get i) cs = some ci ∧
      ci + (i : Nat) ≤ c

/-- The in-bounds cells of the grid, as a finite set. -/
def valid_cells (g : Grid) : Finset (Int × Int) :=
  Finset.Icc 0 (g.width - 1) ×ˢ Finset.Icc 0 (g.height - 1)

/-- All keys `find_path` can ever store: the start node and the in-bounds
cells. -/
def astar_universe (g : Grid) (start : Int × Int) : Finset (Int × Int) :=
  insert start (valid_cells g)

/-- A stored cost, defaulting to `B` for absent keys. -/
def cost_or_default (cs : List ((Int × Int) × Nat)) (B : Nat)
    (n : Int × Int) : Nat :=
  (List.lookup n cs).getD B

/-- Termination potential of the A* loop: frontier length plus the summed
(defaulted) stored costs over the key universe.  Every loop iteration
strictly decreases it. -/
def astar_potential (g : Grid) (start : Int × Int) (st : AStarState) : Nat :=
  st.frontier.length +
    Finset.sum (astar_universe g start)
      (cost_or_default st.cost_so_far (g.width.toNat * g.height.toNat + 2))

/-- Loop invariant of `find_path`: every frontier node has a stored cost,
every stored key is reachable from `start`, keys are duplicate-free and lie
in the key universe, and every stored cost carries a `cost_chain`
certificate. -/
def astar_inv (g : Grid) (avoid_bombs : Bool) (start : Int × Int)
    (st : AStarState) : Prop :=
  (∀ e ∈ st.frontier, ∃ c, List.lookup e.2 st.cost_so_far = some c) ∧
  (∀ p ∈ st.cost_so_far, ReachableFrom g avoid_bombs start p.1) ∧
  (st.cost_so_far.map Prod.fst).Nodup ∧
  (∀ p ∈ st.cost_so_far, p.1 ∈ astar_universe g start) ∧
  (∀ p ∈ st.cost_so_far,
    cost_chain g avoid_bombs start st.cost_so_far p.1 p.2)

/-! ## Basic grid lemmas -/

theorem clamp_grid_eq_self (g : Grid) (x y : Int) (hx1 : 0 ≤ x)
    (hx2 : x < g.width) (hy1 : 0 ≤ y) (hy2 : y < g.height) :
    g.clamp_grid x y = (x, y) := by
  unfold Grid.clamp_grid
  rw [Prod.mk.injEq]
  omega

theorem get_tile_of_inbounds (g : Grid) (x y : Int) (hx1 : 0 ≤ x)
    (hx2 : x < g.width) (hy1 : 0 ≤ y) (hy2 : y < g.height) :
    g.get_tile x y = g.tiles x y := by
  unfold Grid.get_tile
  rw [clamp_grid_eq_self g x y hx1 hx2 hy1 hy2]

theorem clamp_grid_inbounds (g : Grid) (x y : Int) (hw : 0 < g.width)
    (hh : 0 < g.height) :
    0 ≤ (g.clamp_grid x y).1 ∧ (g.clamp_grid x y).1 < g.width ∧
      0 ≤ (g.clamp_grid x y).2 ∧ (g.clamp_grid x y).2 < g.height := by
  unfold Grid.clamp_grid
  dsimp only
  omega

/-- C5 counterexample: on a 3×3 all-empty grid the out-of-bounds coordinate
`(-1, 0)` is *not* reported as a wall by `is_wall` (it is clamped to the
empty border tile `(0, 0)`), and it is even reported walkable by `is_empty`,
refuting "is_wall reports a wall ... regardless of the contents of the
in-bounds tiles". -/
theorem C5_counterexample :
    (openGrid 3 3).is_valid_grid (-1) 0 = false ∧
    (openGrid 3 3).is_wall (-1) 0 = false ∧
    (openGrid 3 3).is_empty (-1) 0 = true := by
  decide

/-- C5 (amended): an out-of-bounds coordinate is rejected by the bounds
check `is_valid_grid`, but the tile queries `get_tile` / `is_wall` *clamp*
it to the nearest in-bounds coordinate and report that border tile's
content — out of bounds is blocking only when the clamped border tile is a
wall. -/
theorem C5_out_of_bounds_clamped (g : Grid) (x y : Int)
    (h : ¬(0 ≤ x ∧ x < g.width ∧ 0 ≤ y ∧ y < g.height))
    (hw : 0 < g.width) (hh : 0 < g.height) :
    g.is_valid_grid x y = false ∧
    g.get_tile x y = g.get_tile (g.clamp_grid x y).1 (g.clamp_grid x y).2 ∧
    g.is_wall x y = g.is_wall (g.clamp_grid x y).1 (g.clamp_grid x y).2 ∧
    g.is_valid_grid (g.clamp_grid x y).1 (g.clamp_grid x y).2 = true := by
  obtain ⟨h1, h2, h3, h4⟩ := clamp_grid_inbounds g x y hw hh
  have hread : g.get_tile x y = g.get_tile (g.clamp_grid x y).1 (g.clamp_grid x y).2 := by
    rw [get_tile_of_inbounds g _ _ h1 h2 h3 h4]
    unfold Grid.get_tile
    dsimp only
  refine ⟨by simp [Grid.is_valid_grid, h], hread, ?_, by simp [Grid.is_valid_grid, h1, h2, h3, h4]⟩
  unfold Grid.is_wall
  rw [hread]

/-- C5 witness: the amended statement applied at the concrete out-of-bounds
coordinate `(-1, 0)` of the 3×3 all-empty grid. -/
theorem C5_out_of_bounds_clamped_witness :
    (openGrid 3 3).is_valid_grid (-1) 0 = false ∧
    (openGrid 3 3).get_tile (-1) 0 =
      (openGrid 3 3).get_tile ((openGrid 3 3).clamp_grid (-1) 0).1
        ((openGrid 3 3).clamp_grid (-1) 0).2 ∧
    (openGrid 3 3).is_wall (-1) 0 =
      (openGrid 3 3).is_wall ((openGrid 3 3).clamp_grid (-1) 0).1
        ((openGrid 3 3).clamp_grid (-1) 0).2 ∧
    (openGrid 3 3).is_valid_grid ((openGrid 3 3).clamp_grid (-1) 0).1
      ((openGrid 3 3).clamp_grid (-1) 0).2 = true :=
  C5_out_of_bounds_clamped (openGrid 3 3) (-1) 0 (by decide) (by decide) (by decide)


theorem destroy_soft_wall_of_not (g : Grid) (x y : Int) (e : Option (Int × Int))
    (h : g.is_soft_wall x y = false) : g.destroy_soft_wall x y e = (g, false) := by
  simp [Grid.destroy_soft_wall, h]

theorem destroy_soft_wall_structure (g : Grid) (x y : Int) (e : Option (Int × Int))
    (hx1 : 0 ≤ x) (hx2 : x < g.width) (hy1 : 0 ≤ y) (hy2 : y < g.height)
    (hs : g.get_tile x y = Tile.softWall) :
    g.destroy_soft_wall x y e =
      ({ g with
          tiles := fun a b =>
            if a = x ∧ b = y then
              (if e = some (x, y) then Tile.exit else Tile.empty)
            else g.tiles a b,
          soft_walls := g.soft_walls.filter (fun p => p ≠ (x, y)) }, true) := by
  have hb : 0 ≤ x ∧ x < g.width ∧ 0 ≤ y ∧ y < g.height := ⟨hx1, hx2, hy1, hy2⟩
  have hsw : g.is_soft_wall x y = true := by simp [Grid.is_soft_wall, hs]
  unfold Grid.destroy_soft_wall
  simp only [hsw, if_true]
  cases e with
  | none => simp [Grid.set_tile, hb]
  | some p =>
    by_cases hp : x = p.1 ∧ y = p.2
    · have hpe : p = (x, y) := by
        obtain ⟨h1, h2⟩ := hp
        exact Prod.ext h1.symm h2.symm
      subst hpe
      simp [Grid.set_tile, hb]
    · have hne : ¬(some p = some ((x : Int), (y : Int))) := by
        intro hcon
        apply hp
        have : p = (x, y) := by injection hcon
        rw [this]
        exact ⟨rfl, rfl⟩
      simp [Grid.set_tile, hb, hp, hne]

/-- C6: for an in-bounds tile, `destroy_soft_wall` succeeds iff the tile is
currently a soft wall; on success the tile becomes `Exit` exactly when the
coordinate equals the configured exit position (else `Empty`), no other tile
entry changes, the bomb set is untouched, and an immediately repeated call is
a failing no-op; on failure the grid is returned entirely unchanged. -/
theorem C6_destroy_soft_wall (g : Grid) (x y : Int) (e : Option (Int × Int))
    (hx1 : 0 ≤ x) (hx2 : x < g.width) (hy1 : 0 ≤ y) (hy2 : y < g.height) :
    ((g.destroy_soft_wall x y e).2 = true ↔ g.get_tile x y = Tile.softWall) ∧
    ((g.destroy_soft_wall x y e).2 = false → (g.destroy_soft_wall x y e).1 = g) ∧
    (g.get_tile x y = Tile.softWall →
      ((g.destroy_soft_wall x y e).1.get_tile x y =
          if e = some (x, y) then Tile.exit else Tile.empty) ∧
      (∀ a b : Int, ¬(a = x ∧ b = y) →
        (g.destroy_soft_wall x y e).1.tiles a b = g.tiles a b) ∧
      (g.destroy_soft_wall x y e).1.bombs = g.bombs ∧
      (g.destroy_soft_wall x y e).1.destroy_soft_wall x y e =
        ((g.destroy_soft_wall x y e).1, false)) := by
  by_cases hs : g.get_tile x y = Tile.softWall
  · have hD := destroy_soft_wall_structure g x y e hx1 hx2 hy1 hy2 hs
    rw [hD]
    have hget : ({ g with
        tiles := fun a b =>
          if a = x ∧ b = y then
            (if e = some (x, y) then Tile.exit else Tile.empty)
          else g.tiles a b,
        soft_walls := g.soft_walls.filter (fun p => p ≠ (x, y)) } :
          Grid).get_tile x y =
        (if e = some (x, y) then Tile.exit else Tile.empty) := by
      unfold Grid.get_tile Grid.clamp_grid
      dsimp only
      have hcx : max 0 (min x (g.width - 1)) = x := by omega
      have hcy : max 0 (min y (g.height - 1)) = y := by omega
      rw [hcx, hcy]
      simp
    refine ⟨by simp [hs], by simp, fun _ => ⟨hget, ?_, rfl, ?_⟩⟩
    · intro a b hab
      simp [hab]
    · apply destroy_soft_wall_of_not
      simp only [Grid.is_soft_wall, hget]
      split <;> simp
  · rw [destroy_soft_wall_of_not g x y e (by simp [Grid.is_soft_wall, hs])]
    exact ⟨by simp [hs], fun _ => rfl, fun hcon => absurd hcon hs⟩

/-- C6 witness: destroying the soft wall at `(5,3)` of `wallsGrid` with the
exit configured there succeeds, turns the tile into `Exit`, and a second call
on the same tile fails and changes nothing. -/
theorem C6_destroy_soft_wall_witness :
    ((wallsGrid.destroy_soft_wall 5 3 (some (5, 3))).2 = true ↔
      wallsGrid.get_tile 5 3 = Tile.softWall) ∧
    ((wallsGrid.destroy_soft_wall 5 3 (some (5, 3))).1.get_tile 5 3 =
      if (some ((5 : Int), (3 : Int)) : Option (Int × Int)) = some (5, 3) then
        Tile.exit
      else Tile.empty) ∧
    (wallsGrid.destroy_soft_wall 5 3 (some (5, 3))).1.destroy_soft_wall 5 3
        (some (5, 3)) =
      ((wallsGrid.destroy_soft_wall 5 3 (some (5, 3))).1, false) := by
  have h := C6_destroy_soft_wall wallsGrid 5 3 (some (5, 3))
    (by decide) (by decide) (by decide) (by decide)
  have hsoft : wallsGrid.get_tile 5 3 = Tile.softWall := by decide
  exact ⟨h.1, (h.2.2 hsoft).1, (h.2.2 hsoft).2.2.2⟩

/-- C10: with the zero displacement vector, `resolve_collision` is the
identity on the position and returns the zero collision normal, for every
grid, position, radius and bomb-checking flag — even when the entity already
collides at its current position (all three re-tests then see the same
colliding position, and the dead-velocity guard zeroes the normal). -/
theorem C10_resolve_collision_zero (g : Grid) (nf : ℚ × ℚ → ℚ × ℚ)
    (position : ℚ × ℚ) (radius : ℚ) (check_bombs : Bool) :
    resolve_collision g nf position (0, 0) radius check_bombs =
      (position, (0, 0)) := by
  unfold resolve_collision predict_position
  simp only [add_zero]
  by_cases hc :
      (check_circle_to_grid g nf position.1 position.2 radius check_bombs).ctype = 0
  · simp [hc]
  · simp [hc]

theorem has_bomb_remove_bomb (g : Grid) (x y : Int) :
    (g.remove_bomb x y).has_bomb x y = false := by
  simp [Grid.remove_bomb, Grid.has_bomb, List.elem_iff]

/-- C9: the bomb lifecycle is a one-way state machine.  An exploded bomb is
left untouched by both `update` and `explode` (it never returns to Armed).
An armed bomb explodes under `update` exactly when the advanced fuse time
reaches the configured duration or the external trigger was invoked, and on
that transition the explosion tile-set is computed from the grid state
current at that moment and the bomb is deregistered from the grid's
bomb-occupancy set. -/
theorem C9_bomb_lifecycle (b : Bomb) (g : Grid) (dt : ℚ) :
    (b.exploded = true → b.update dt g = (b, g) ∧ b.explode g = (b, g)) ∧
    (b.exploded = false →
      (((b.update dt g).1.exploded = true) ↔
        ((if b.fuse_timer.paused then b.fuse_timer.elapsed
            else b.fuse_timer.elapsed + dt) ≥ b.fuse_timer.duration ∨
          b.triggered = true)) ∧
      ((b.update dt g).1.exploded = true →
        (b.update dt g).1.explosion_tiles =
          g.get_explosion_tiles b.grid_x b.grid_y b.power ∧
        (b.update dt g).2 = g.remove_bomb b.grid_x b.grid_y ∧
        (b.update dt g).2.has_bomb b.grid_x b.grid_y = false)) := by
  constructor
  · intro hex
    constructor <;> simp [Bomb.update, Bomb.explode, hex]
  · intro hnex
    unfold Bomb.update
    simp only [hnex, Bool.false_eq_true, if_false, Timer.update]
    by_cases hp : b.fuse_timer.paused
    · simp only [hp, if_true]
      by_cases hcond :
          b.fuse_timer.elapsed ≥ b.fuse_timer.duration ∨ b.triggered = true
      · refine ⟨?_, fun _ => ?_⟩
        · simp [hcond, Bomb.explode, hnex]
        · simp [hcond, Bomb.explode, hnex, has_bomb_remove_bomb]
      · refine ⟨?_, fun hcon => ?_⟩
        · simp [hcond, hnex]
        · exfalso
          simp [hcond, hnex] at hcon
    · simp only [hp, if_false]
      by_cases hcond :
          b.fuse_timer.elapsed + dt ≥ b.fuse_timer.duration ∨ b.triggered = true
      · refine ⟨?_, fun _ => ?_⟩
        · simp [hcond, Bomb.explode, hnex]
        · simp [hcond, Bomb.explode, hnex, has_bomb_remove_bomb]
      · refine ⟨?_, fun hcon => ?_⟩
        · simp [hcond, hnex]
        · exfalso
          simp [hcond, hnex] at hcon

/-- C9 witness: a freshly armed bomb at `(2,1)` with fuse 2 s on
`oneBombGrid` explodes after an update of `dt = 2`, its frozen tile-set is
the one computed from the grid at that moment, and the grid's bomb set no
longer contains `(2,1)`. -/
theorem C9_bomb_lifecycle_witness :
    (Bomb.mkBomb 2 1 1 2 none).exploded = false ∧
    ((Bomb.mkBomb 2 1 1 2 none).update 2 oneBombGrid).1.exploded = true ∧
    ((Bomb.mkBomb 2 1 1 2 none).update 2 oneBombGrid).1.explosion_tiles =
      oneBombGrid.get_explosion_tiles 2 1 1 ∧
    ((Bomb.mkBomb 2 1 1 2 none).update 2 oneBombGrid).2.has_bomb 2 1 = false := by
  have h := C9_bomb_lifecycle (Bomb.mkBomb 2 1 1 2 none) oneBombGrid 2
  have hnex : (Bomb.mkBomb 2 1 1 2 none).exploded = false := rfl
  have h2 := (h.2 hnex).1
  have hfire : ((Bomb.mkBomb 2 1 1 2 none).update 2 oneBombGrid).1.exploded = true := by
    apply h2.mpr
    left
    show (if (Timer.mk0 2).paused then (Timer.mk0 2).elapsed
        else (Timer.mk0 2).elapsed + 2) ≥ (Timer.mk0 2).duration
    norm_num [Timer.mk0]
  have h3 := (h.2 hnex).2 hfire
  exact ⟨hnex, hfire, h3.1, h3.2.2⟩

theorem get_total_bonus_eq (effects : List PowerupEffect) :
    get_total_bonus effects =
      ((effects.map PowerupEffect.fire_bonus).sum,
        (effects.map PowerupEffect.bomb_bonus).sum,
        (effects.map PowerupEffect.speed_multiplier).prod) := by
  have key : ∀ (l : List PowerupEffect) (a : Int × Int × ℚ),
      l.foldl
          (fun tot e =>
            (tot.1 + e.fire_bonus, tot.2.1 + e.bomb_bonus,
              tot.2.2 * e.speed_multiplier)) a =
        (a.1 + (l.map PowerupEffect.fire_bonus).sum,
          a.2.1 + (l.map PowerupEffect.bomb_bonus).sum,
          a.2.2 * (l.map PowerupEffect.speed_multiplier).prod) := by
    intro l
    induction l with
    | nil => intro a; simp
    | cons e tl ih =>
      intro a
      simp only [List.foldl_cons, List.map_cons, List.sum_cons, List.prod_cons,
        ih]
      simp [add_assoc, mul_assoc]
  unfold get_total_bonus
  rw [key]
  simp

theorem powerup_effect_expires (e : PowerupEffect) (t : Timer) (dt : ℚ)
    (ht : e.timer = some t) (hpause : t.paused = false)
    (hexp : t.elapsed + dt ≥ t.duration) : (e.update dt).active = false := by
  unfold PowerupEffect.update
  rw [ht]
  simp only [Timer.update, hpause, Bool.false_eq_true, if_false]
  simp only [ge_iff_le] at hexp
  simp [hexp]

/-- C7: power-up aggregation.  Fire and bomb bonuses add, speed multipliers
multiply (`get_total_bonus` is the sum/sum/product of the active effects'
fields); the per-tick player stats are `base + Σ additive` and
`base × Π multiplicative`; concretely two `BombIncrease` effects give bomb
bonus 2 and one/two `SpeedIncrease` effects give ×1.2 / ×1.44; and an effect
whose timer expires during an update is deactivated and dropped by the
manager, after which it contributes nothing to the totals. -/
theorem C7_powerup_aggregation :
    (∀ effects : List PowerupEffect,
      get_total_bonus effects =
        ((effects.map PowerupEffect.fire_bonus).sum,
          (effects.map PowerupEffect.bomb_bonus).sum,
          (effects.map PowerupEffect.speed_multiplier).prod)) ∧
    (∀ effects : List PowerupEffect,
      player_apply_bonuses (get_total_bonus effects) =
        (INITIAL_BOMB_COUNT + (effects.map PowerupEffect.bomb_bonus).sum,
          INITIAL_BOMB_POWER + (effects.map PowerupEffect.fire_bonus).sum,
          PLAYER_SPEED_DEFAULT * (effects.map PowerupEffect.speed_multiplier).prod)) ∧
    (get_total_bonus [PowerupEffect.mkEffect PowerupType.bomb_increase,
        PowerupEffect.mkEffect PowerupType.bomb_increase,
        PowerupEffect.mkEffect PowerupType.speed_increase] = (0, 2, 6 / 5) ∧
      get_total_bonus [PowerupEffect.mkEffect PowerupType.speed_increase] =
        (0, 0, 6 / 5) ∧
      get_total_bonus [PowerupEffect.mkEffect PowerupType.speed_increase,
        PowerupEffect.mkEffect PowerupType.speed_increase] = (0, 0, 36 / 25)) ∧
    (∀ (e : PowerupEffect) (t : Timer) (dt : ℚ),
      e.timer = some t → t.paused = false → t.elapsed + dt ≥ t.duration →
      (e.update dt).active = false ∧
      ∀ l1 l2 : List PowerupEffect,
        powerup_manager_update_effects (l1 ++ e :: l2) dt =
          powerup_manager_update_effects (l1 ++ l2) dt) := by
  refine ⟨get_total_bonus_eq, ?_, ⟨?_, ?_, ?_⟩, ?_⟩
  · intro effects
    rw [get_total_bonus_eq]
    rfl
  · norm_num [get_total_bonus, PowerupEffect.mkEffect]
    simp only [show ¬(PowerupType.bomb_increase = PowerupType.fire_increase) by decide,
      show ¬(PowerupType.speed_increase = PowerupType.fire_increase) by decide,
      show ¬(PowerupType.bomb_increase = PowerupType.speed_increase) by decide,
      show ¬(PowerupType.speed_increase = PowerupType.bomb_increase) by decide,
      if_false, not_false_iff]
    norm_num
  · norm_num [get_total_bonus, PowerupEffect.mkEffect]
    simp only [show ¬(PowerupType.speed_increase = PowerupType.fire_increase) by decide,
      show ¬(PowerupType.speed_increase = PowerupType.bomb_increase) by decide,
      if_false, not_false_iff]
    exact ⟨trivial, trivial⟩
  · norm_num [get_total_bonus, PowerupEffect.mkEffect]
    simp only [show ¬(PowerupType.speed_increase = PowerupType.fire_increase) by decide,
      show ¬(PowerupType.speed_increase = PowerupType.bomb_increase) by decide,
      if_false, not_false_iff]
    exact ⟨trivial, trivial⟩
  · intro e t dt ht hpause hexp
    have hdead := powerup_effect_expires e t dt ht hpause hexp
    refine ⟨hdead, fun l1 l2 => ?_⟩
    unfold powerup_manager_update_effects
    simp [List.filter_append, hdead]

/-- C7 witness: applied at concrete effect lists — a timed `SpeedIncrease`
effect that expires within `dt = 1` drops out of the manager's list, and the
concrete sum/product instances from the spec hold. -/
theorem C7_powerup_aggregation_witness :
    get_total_bonus [PowerupEffect.mkEffect PowerupType.bomb_increase,
        PowerupEffect.mkEffect PowerupType.bomb_increase,
        PowerupEffect.mkEffect PowerupType.speed_increase] = (0, 2, 6 / 5) ∧
    ((PowerupEffect.mkEffect PowerupType.speed_increase 1).update 1).active =
      false ∧
    powerup_manager_update_effects
        [PowerupEffect.mkEffect PowerupType.speed_increase 1,
          PowerupEffect.mkEffect PowerupType.bomb_increase] 1 =
      powerup_manager_update_effects
        [PowerupEffect.mkEffect PowerupType.bomb_increase] 1 := by
  have h := C7_powerup_aggregation
  have hexp := h.2.2.2 (PowerupEffect.mkEffect PowerupType.speed_increase 1)
    (Timer.mk0 1) 1 (by norm_num [PowerupEffect.mkEffect]) rfl
    (by norm_num [Timer.mk0])
  exact ⟨h.2.2.1.1, hexp.1, hexp.2 [] [PowerupEffect.mkEffect PowerupType.bomb_increase]⟩

theorem get_escape_direction_ne_zero (g : Grid)
    (explosions : List (List (Int × Int))) (pos : Int × Int) (v : ℚ × ℚ)
    (h : get_escape_direction g explosions pos = some v) : v ≠ (0, 0) := by
  unfold get_escape_direction at h
  cases hf : find_nearest_safe_tile g explosions pos with
  | none => rw [hf] at h; exact absurd h (by simp)
  | some st =>
    rw [hf] at h
    dsimp only at h
    split at h
    · split at h <;> · injection h with h'; rw [← h']; intro hc; injection hc with h1 h2; norm_num at h1
    · split at h <;> · injection h with h'; rw [← h']; intro hc; injection hc with h1 h2; norm_num at h2

/-- C3 (code bug): the threat-avoidance override in
`SmartEnemyAI.get_movement_direction` fires even when the enemy's current
tile is perfectly safe.  On a 5×4 grid with no explosions and no bombs
(every tile safe, enemy at `(2,2)`), the current tile is reported safe, yet
`get_escape_direction` returns the nonzero (hence truthy) vector `(0, -1)` —
its nearest safe tile is the enemy's own tile, `dx = dy = 0`, and the
tie-breaking branch emits an unconditional up-step — so chase/wander is
skipped, contradicting the code's own comment (escape only "if in danger")
and the spec.  Moreover (last conjunct) `_is_tile_safe` adds the grid pixel
offsets to the query point but not to the explosion footprint centres, so
with the game's real offsets an explosion covering the enemy's own tile is
not even detected as a threat. -/
theorem C3_escape_override_code_bug :
    is_tile_safe safeFieldGrid [] 2 2 = true ∧
    get_escape_direction safeFieldGrid [] (2, 2) = some (0, -1) ∧
    smart_escape_override safeFieldGrid [] (2, 2) ≠ none ∧
    is_tile_safe safeFieldGrid [[(2, 2)]] 2 2 = true := by
  refine ⟨by decide, by decide, by decide, ?_⟩
  norm_num [is_tile_safe, check_any_hit_position, explosion_check_hit_position,
    safeFieldGrid, openGrid, Grid.has_bomb, TILE_SIZE]

/-- C4 counterexample: the player stands on the bomb tile `(1,1)` of
`twoBombGrid` while the adjacent tile `(2,1)` also holds a bomb; one movement
step to the right (input `(1,0)`, speed 150, `dt = 6/25`, radius 16) carries
the player from pixel `(72,72)` to `(108,72)`, whose tile is the *different*
bomb-occupied tile `(2,1)` — refuting "still blocked from moving onto any
different tile that currently holds a bomb". -/
theorem C4_counterexample :
    twoBombGrid.has_bomb 1 1 = true ∧
    twoBombGrid.has_bomb 2 1 = true ∧
    player_update_movement twoBombGrid axisUnit (72, 72) (1, 1) (1, 0) 150
        (6 / 25) 16 = ((108, 72), (2, 1)) ∧
    twoBombGrid.pixel_to_grid 108 72 = (2, 1) ∧ (1, 1) ≠ ((2 : Int), (1 : Int)) := by
  refine ⟨by decide, by decide, ?_, ?_, by decide⟩
  · norm_num [player_update_movement, axisUnit, check_circle_to_grid,
      check_neighbor_tiles, create_wall_collision, circle_overlaps_tile,
      Grid.pixel_to_grid, Grid.clamp_grid, Grid.is_wall, Grid.get_tile,
      Grid.has_bomb, Grid.is_valid_grid, twoBombGrid, openGrid, clamp,
      TILE_SIZE, CollisionInfo.noneInfo, List.elem]
  · norm_num [Grid.pixel_to_grid, Grid.clamp_grid, twoBombGrid, openGrid]

/-- C4 (amended): bombs block the player's movement *only* when the player's
current tile holds no bomb.  If the current tile holds a bomb, bomb occupancy
is ignored entirely — walls alone decide each axis, so the player can walk
off its own bomb tile but can equally walk onto a different bomb-occupied
tile.  If the current tile holds no bomb and the displaced position's tile
holds a bomb, the player does not move at all. -/
theorem C4_player_bomb_blocking (g : Grid) (nf : ℚ × ℚ → ℚ × ℚ)
    (position : ℚ × ℚ) (grid_pos : Int × Int) (input_direction : ℚ × ℚ)
    (speed dt radius : ℚ) (mv : ℚ × ℚ) (new_x new_y : ℚ)
    (hmv0 : (input_direction.1 * (speed * dt), input_direction.2 * (speed * dt)) ≠ (0, 0))
    (hmv : mv = ((nf (input_direction.1 * (speed * dt),
        input_direction.2 * (speed * dt))).1 * (speed * dt),
      (nf (input_direction.1 * (speed * dt),
        input_direction.2 * (speed * dt))).2 * (speed * dt)))
    (hnx : new_x = position.1 + mv.1) (hny : new_y = position.2 + mv.2) :
    (g.has_bomb grid_pos.1 grid_pos.2 = true →
      (player_update_movement g nf position grid_pos input_direction speed dt radius).1 =
        ((if (check_circle_to_grid g nf new_x position.2 (radius * (4 / 5)) true).ctype ≠ 1
            then new_x else position.1),
          (if (check_circle_to_grid g nf position.1 new_y (radius * (4 / 5)) true).ctype ≠ 1
            then new_y else position.2))) ∧
    (g.has_bomb grid_pos.1 grid_pos.2 = false →
      g.has_bomb (g.pixel_to_grid new_x new_y).1 (g.pixel_to_grid new_x new_y).2 = true →
      (player_update_movement g nf position grid_pos input_direction speed dt radius).1 =
        position) := by
  subst hmv
  subst hnx
  subst hny
  unfold player_update_movement
  simp only [hmv0, if_pos, if_true, ne_eq, not_false_iff]
  constructor
  · intro hb
    simp [hb]
  · intro hb hdest
    simp only [hb, hdest, Bool.not_false, Bool.and_self, if_true]
    by_cases h1 : (nf (input_direction.1 * (speed * dt),
        input_direction.2 * (speed * dt))).1 * (speed * dt) = 0 <;>
      by_cases h2 : (nf (input_direction.1 * (speed * dt),
          input_direction.2 * (speed * dt))).2 * (speed * dt) = 0 <;>
        simp [h1, h2]

/-- C4 witness: the amended statement applied at the two concrete scenarios —
on `twoBombGrid` (player on a bomb tile) the movement is decided by walls
alone, and on `oneBombGrid` (player not on a bomb, bomb ahead at `(2,1)`)
the player stays at `(72,72)`. -/
theorem C4_player_bomb_blocking_witness :
    (player_update_movement twoBombGrid axisUnit (72, 72) (1, 1) (1, 0) 150
        (6 / 25) 16).1 =
      ((if (check_circle_to_grid twoBombGrid axisUnit 108 72 (16 * (4 / 5)) true).ctype ≠ 1
          then (108 : ℚ) else 72),
        (if (check_circle_to_grid twoBombGrid axisUnit 72 72 (16 * (4 / 5)) true).ctype ≠ 1
          then (72 : ℚ) else 72)) ∧
    (player_update_movement oneBombGrid axisUnit (72, 72) (1, 1) (1, 0) 150
        (6 / 25) 16).1 = (72, 72) := by
  constructor
  · have h := (C4_player_bomb_blocking twoBombGrid axisUnit (72, 72) (1, 1)
      (1, 0) 150 (6 / 25) 16 (36, 0) 108 72
      (by norm_num) (by norm_num [axisUnit]) (by norm_num) (by norm_num)).1
      (by decide)
    simpa using h
  · have h := (C4_player_bomb_blocking oneBombGrid axisUnit (72, 72) (1, 1)
      (1, 0) 150 (6 / 25) 16 (36, 0) 108 72
      (by norm_num) (by norm_num [axisUnit]) (by norm_num) (by norm_num)).2
      (by decide)
      (by norm_num [Grid.pixel_to_grid, Grid.clamp_grid, oneBombGrid, openGrid,
        Grid.has_bomb, List.elem])
    simpa using h

/-- C2 counterexample: on `cornerGrid` an entity at the (collision-free)
centre pixel `(72,72)` of tile `(1,1)` moves diagonally by `(20,20)` into the
corner formed by the walls at `(2,1)` and `(1,2)`.  The X-only and Y-only
displaced positions both collide (both axes individually blocked), the
entity stays at its original position — but the reported collision normal is
`(0,0)`, refuting "a nonzero collision normal pointing away from the obstacle
is reported". -/
theorem C2_counterexample :
    (check_circle_to_grid cornerGrid axisUnit 72 72 10 true).ctype = 0 ∧
    (check_circle_to_grid cornerGrid axisUnit 92 72 10 true).ctype ≠ 0 ∧
    (check_circle_to_grid cornerGrid axisUnit 72 92 10 true).ctype ≠ 0 ∧
    resolve_collision cornerGrid axisUnit (72, 72) (20, 20) 10 true =
      ((72, 72), (0, 0)) := by
  norm_num [resolve_collision, predict_position, check_circle_to_grid,
    check_neighbor_tiles, create_wall_collision, circle_overlaps_tile,
    Grid.pixel_to_grid, Grid.clamp_grid, Grid.is_wall, Grid.get_tile,
    Grid.has_bomb, Grid.is_valid_grid, cornerGrid, openGrid, clamp,
    TILE_SIZE, CollisionInfo.noneInfo, List.elem]

/-- C2 (amended): axis-decomposed sliding for an entity whose original
position is collision-free.  An unblocked full displacement is applied
outright; a blocked full displacement is decomposed, each individually
unblocked axis is applied (both axes when both are individually free, even
though their combination was blocked), and an individually blocked axis
keeps its original coordinate — both axes blocked therefore leaves the
entity at its original position.  In every such case the reported collision
normal is `(0,0)`: the branch reporting a nonzero normal `-v̂` is reachable
only when the entity's original position itself already collides. -/
theorem C2_resolve_axis_sliding (g : Grid) (nf : ℚ × ℚ → ℚ × ℚ)
    (position velocity : ℚ × ℚ) (radius : ℚ) (check_bombs : Bool)
    (hclean : (check_circle_to_grid g nf position.1 position.2 radius check_bombs).ctype = 0) :
    ((check_circle_to_grid g nf (position.1 + velocity.1) (position.2 + velocity.2)
        radius check_bombs).ctype = 0 →
      resolve_collision g nf position velocity radius check_bombs =
        ((position.1 + velocity.1, position.2 + velocity.2), (0, 0))) ∧
    ((check_circle_to_grid g nf (position.1 + velocity.1) (position.2 + velocity.2)
        radius check_bombs).ctype ≠ 0 →
      resolve_collision g nf position velocity radius check_bombs =
        (((if (check_circle_to_grid g nf (position.1 + velocity.1) position.2
              radius check_bombs).ctype = 0
            then position.1 + velocity.1 else position.1),
          (if (check_circle_to_grid g nf position.1 (position.2 + velocity.2)
              radius check_bombs).ctype = 0
            then position.2 + velocity.2 else position.2)), (0, 0))) := by
  unfold resolve_collision predict_position
  simp only [add_zero]
  constructor
  · intro hfull
    simp [hfull]
  · intro hfull
    by_cases hX : (check_circle_to_grid g nf (position.1 + velocity.1) position.2
        radius check_bombs).ctype = 0 <;>
      by_cases hY : (check_circle_to_grid g nf position.1 (position.2 + velocity.2)
          radius check_bombs).ctype = 0 <;>
        simp [hfull, hX, hY, hclean]

/-- C2 witness: the amended statement applied on `slideGrid` — the wall at
`(2,1)` blocks the x axis, the y axis is free, and the diagonal mover at
`(72,72)` with displacement `(20,20)` slides to `(72,92)` with zero normal. -/
theorem C2_resolve_axis_sliding_witness :
    resolve_collision slideGrid axisUnit (72, 72) (20, 20) 10 true =
      ((72, 92), (0, 0)) := by
  have h := (C2_resolve_axis_sliding slideGrid axisUnit (72, 72) (20, 20) 10 true
    (by norm_num [check_circle_to_grid, check_neighbor_tiles,
      create_wall_collision, circle_overlaps_tile, Grid.pixel_to_grid,
      Grid.clamp_grid, Grid.is_wall, Grid.get_tile, Grid.has_bomb,
      Grid.is_valid_grid, slideGrid, openGrid, clamp, TILE_SIZE,
      CollisionInfo.noneInfo, List.elem])).2
    (by norm_num [check_circle_to_grid, check_neighbor_tiles,
      create_wall_collision, circle_overlaps_tile, Grid.pixel_to_grid,
      Grid.clamp_grid, Grid.is_wall, Grid.get_tile, Grid.has_bomb,
      Grid.is_valid_grid, slideGrid, openGrid, clamp, TILE_SIZE,
      CollisionInfo.noneInfo, List.elem])
  rw [h]
  norm_num [check_circle_to_grid, check_neighbor_tiles, create_wall_collision,
    circle_overlaps_tile, Grid.pixel_to_grid, Grid.clamp_grid, Grid.is_wall,
    Grid.get_tile, Grid.has_bomb, Grid.is_valid_grid, slideGrid, openGrid,
    clamp, TILE_SIZE, CollisionInfo.noneInfo, List.elem]
theorem arm_step_invalid (g : Grid) (cx cy dx dy : Int) (i n : Nat)
    (h : g.is_valid_grid (cx + dx * (i : Int)) (cy + dy * (i : Int)) = false) :
    g.explosion_arm cx cy dx dy i (n + 1) = [] := by
  simp [Grid.explosion_arm, h]

theorem arm_step_hard (g : Grid) (cx cy dx dy : Int) (i n : Nat)
    (hv : g.is_valid_grid (cx + dx * (i : Int)) (cy + dy * (i : Int)) = true)
    (hh : g.get_tile (cx + dx * (i : Int)) (cy + dy * (i : Int)) = Tile.hardWall) :
    g.explosion_arm cx cy dx dy i (n + 1) = [] := by
  simp [Grid.explosion_arm, hv, hh]

theorem arm_step_soft (g : Grid) (cx cy dx dy : Int) (i n : Nat)
    (hv : g.is_valid_grid (cx + dx * (i : Int)) (cy + dy * (i : Int)) = true)
    (hh : g.get_tile (cx + dx * (i : Int)) (cy + dy * (i : Int)) ≠ Tile.hardWall)
    (hs : g.get_tile (cx + dx * (i : Int)) (cy + dy * (i : Int)) = Tile.softWall) :
    g.explosion_arm cx cy dx dy i (n + 1) =
      [(cx + dx * (i : Int), cy + dy * (i : Int))] := by
  have hh2 := hh
  simp [Grid.explosion_arm, hv, hh2, hs]

theorem arm_step_go (g : Grid) (cx cy dx dy : Int) (i n : Nat)
    (hv : g.is_valid_grid (cx + dx * (i : Int)) (cy + dy * (i : Int)) = true)
    (hh : g.get_tile (cx + dx * (i : Int)) (cy + dy * (i : Int)) ≠ Tile.hardWall)
    (hs : g.get_tile (cx + dx * (i : Int)) (cy + dy * (i : Int)) ≠ Tile.softWall) :
    g.explosion_arm cx cy dx dy i (n + 1) =
      (cx + dx * (i : Int), cy + dy * (i : Int)) ::
        g.explosion_arm cx cy dx dy (i + 1) n := by
  simp [Grid.explosion_arm, hv, hh, hs]

theorem explosion_arm_mem (g : Grid) (cx cy dx dy : Int) :
    ∀ (steps i : Nat) (t : Int × Int),
      t ∈ g.explosion_arm cx cy dx dy i steps ↔
        ∃ k : Nat, i ≤ k ∧ k < i + steps ∧
          (∀ j : Nat, i ≤ j → j < k → arm_pass g cx cy dx dy j) ∧
          arm_incl g cx cy dx dy k ∧
          t = (cx + dx * (k : Int), cy + dy * (k : Int)) := by
  intro steps
  induction steps with
  | zero =>
    intro i t
    constructor
    · intro h
      simp [Grid.explosion_arm] at h
    · rintro ⟨k, h1, h2, -⟩
      omega
  | succ n ih =>
    intro i t
    cases hv : g.is_valid_grid (cx + dx * (i : Int)) (cy + dy * (i : Int)) with
    | false =>
      rw [arm_step_invalid g cx cy dx dy i n hv]
      simp only [List.not_mem_nil, false_iff]
      rintro ⟨k, h1, h2, hpass, hincl, -⟩
      rcases Nat.eq_or_lt_of_le h1 with heq | hlt
      · rw [← heq] at hincl
        rw [hincl.1] at hv
        exact Bool.noConfusion hv
      · have hji := (hpass i le_rfl hlt).1
        rw [hji] at hv
        exact Bool.noConfusion hv
    | true =>
      by_cases hh : g.get_tile (cx + dx * (i : Int)) (cy + dy * (i : Int)) = Tile.hardWall
      · rw [arm_step_hard g cx cy dx dy i n hv hh]
        simp only [List.not_mem_nil, false_iff]
        rintro ⟨k, h1, h2, hpass, hincl, -⟩
        rcases Nat.eq_or_lt_of_le h1 with heq | hlt
        · rw [← heq] at hincl
          exact hincl.2 hh
        · exact (hpass i le_rfl hlt).2.1 hh
      · by_cases hsoft : g.get_tile (cx + dx * (i : Int)) (cy + dy * (i : Int)) = Tile.softWall
        · rw [arm_step_soft g cx cy dx dy i n hv hh hsoft]
          simp only [List.mem_singleton]
          constructor
          · intro ht
            exact ⟨i, le_rfl, by omega, fun j hj1 hj2 => absurd hj1 (by omega),
              ⟨hv, hh⟩, ht⟩
          · rintro ⟨k, h1, h2, hpass, hincl, ht⟩
            rcases Nat.eq_or_lt_of_le h1 with heq | hlt
            · rw [← heq] at ht
              exact ht
            · exact absurd (hpass i le_rfl hlt).2.2 (fun hc => hc hsoft)
        · rw [arm_step_go g cx cy dx dy i n hv hh hsoft]
          rw [List.mem_cons, ih (i + 1) t]
          constructor
          · rintro (ht | ⟨k, h1, h2, hpass, hincl, ht⟩)
            · exact ⟨i, le_rfl, by omega, fun j hj1 hj2 => absurd hj1 (by omega),
                ⟨hv, hh⟩, ht⟩
            · refine ⟨k, by omega, by omega, fun j hj1 hj2 => ?_, hincl, ht⟩
              rcases Nat.eq_or_lt_of_le hj1 with heq | hlt
              · rw [← heq]
                exact ⟨hv, hh, hsoft⟩
              · exact hpass j hlt hj2
          · rintro ⟨k, h1, h2, hpass, hincl, ht⟩
            rcases Nat.eq_or_lt_of_le h1 with heq | hlt
            · left
              rw [← heq] at ht
              exact ht
            · right
              exact ⟨k, hlt, by omega, fun j hj1 hj2 => hpass j (by omega) hj2,
                hincl, ht⟩

theorem explosion_arm_length_open (g : Grid) (cx cy dx dy : Int) :
    ∀ (steps i : Nat),
      (∀ j : Nat, i ≤ j → j < i + steps → arm_pass g cx cy dx dy j) →
      (g.explosion_arm cx cy dx dy i steps).length = steps := by
  intro steps
  induction steps with
  | zero =>
    intro i _
    simp [Grid.explosion_arm]
  | succ n ih =>
    intro i h
    have hp := h i le_rfl (by omega)
    rw [arm_step_go g cx cy dx dy i n hp.1 hp.2.1 hp.2.2]
    simp only [List.length_cons, ih (i + 1) (fun j hj1 hj2 => h j (by omega) (by omega))]

theorem explosion_arm_length_hard (g : Grid) (cx cy dx dy : Int) :
    ∀ (steps i d : Nat), i ≤ d → d < i + steps →
      (∀ j : Nat, i ≤ j → j < d → arm_pass g cx cy dx dy j) →
      g.is_valid_grid (cx + dx * (d : Int)) (cy + dy * (d : Int)) = true →
      g.get_tile (cx + dx * (d : Int)) (cy + dy * (d : Int)) = Tile.hardWall →
      (g.explosion_arm cx cy dx dy i steps).length = d - i := by
  intro steps
  induction steps with
  | zero =>
    intro i d h1 h2
    omega
  | succ n ih =>
    intro i d h1 h2 hpass hv hh
    rcases Nat.eq_or_lt_of_le h1 with heq | hlt
    · subst heq
      rw [arm_step_hard g cx cy dx dy i n hv hh]
      simp
    · have hp := hpass i le_rfl hlt
      rw [arm_step_go g cx cy dx dy i n hp.1 hp.2.1 hp.2.2]
      rw [List.length_cons,
        ih (i + 1) d (by omega) (by omega)
          (fun j hj1 hj2 => hpass j (by omega) hj2) hv hh]
      omega

theorem explosion_arm_length_soft (g : Grid) (cx cy dx dy : Int) :
    ∀ (steps i d : Nat), i ≤ d → d < i + steps →
      (∀ j : Nat, i ≤ j → j < d → arm_pass g cx cy dx dy j) →
      g.is_valid_grid (cx + dx * (d : Int)) (cy + dy * (d : Int)) = true →
      g.get_tile (cx + dx * (d : Int)) (cy + dy * (d : Int)) ≠ Tile.hardWall →
      g.get_tile (cx + dx * (d : Int)) (cy + dy * (d : Int)) = Tile.softWall →
      (g.explosion_arm cx cy dx dy i steps).length = d - i + 1 := by
  intro steps
  induction steps with
  | zero =>
    intro i d h1 h2
    omega
  | succ n ih =>
    intro i d h1 h2 hpass hv hh hs
    rcases Nat.eq_or_lt_of_le h1 with heq | hlt
    · subst heq
      rw [arm_step_soft g cx cy dx dy i n hv hh hs]
      simp
    · have hp := hpass i le_rfl hlt
      rw [arm_step_go g cx cy dx dy i n hp.1 hp.2.1 hp.2.2]
      rw [List.length_cons,
        ih (i + 1) d (by omega) (by omega)
          (fun j hj1 hj2 => hpass j (by omega) hj2) hv hh hs]
      omega

theorem arm_mem_spec_iff (g : Grid) (cx cy dx dy : Int) (p : Nat) (t : Int × Int) :
    t ∈ g.explosion_arm cx cy dx dy 1 p ↔ arm_mem_spec g cx cy dx dy p t := by
  rw [explosion_arm_mem]
  unfold arm_mem_spec
  constructor
  · rintro ⟨k, h1, h2, hp, hi, ht⟩
    exact ⟨k, h1, by omega, hp, hi, ht⟩
  · rintro ⟨k, h1, h2, hp, hi, ht⟩
    exact ⟨k, h1, by omega, hp, hi, ht⟩

/-- C1: `get_explosion_tiles` equals the reference per-arm walk.  The result
always contains the centre; a tile belongs to the result iff it is the centre
or, on one of the four cardinal arms, it lies at a step `k ≤ p` such that all
strictly earlier steps passed through (in bounds, no wall) and the step-`k`
tile is in bounds and not a hard wall (`arm_mem_spec`).  Counting: with all
four arms fully open the result has exactly `4p+1` tiles; a hard wall at
distance `d ≤ p` (with the nearer tiles open) leaves exactly `d-1` tiles
beyond the centre on that arm; a soft wall at distance `d ≤ p` leaves
exactly `d` tiles on that arm. -/
theorem C1_get_explosion_tiles (g : Grid) (cx cy : Int) (p : Nat) :
    ((cx, cy) ∈ g.get_explosion_tiles cx cy p) ∧
    (∀ t : Int × Int, t ∈ g.get_explosion_tiles cx cy p ↔
      t = (cx, cy) ∨ arm_mem_spec g cx cy 0 1 p t ∨
        arm_mem_spec g cx cy 0 (-1) p t ∨ arm_mem_spec g cx cy 1 0 p t ∨
        arm_mem_spec g cx cy (-1) 0 p t) ∧
    ((∀ d : Int × Int, d ∈ ([(0, 1), (0, -1), (1, 0), (-1, 0)] : List (Int × Int)) →
        ∀ j : Nat, 1 ≤ j → j ≤ p → arm_pass g cx cy d.1 d.2 j) →
      (g.get_explosion_tiles cx cy p).length = 4 * p + 1) ∧
    (∀ (dx dy : Int) (d : Nat), 1 ≤ d → d ≤ p →
      (∀ j : Nat, 1 ≤ j → j < d → arm_pass g cx cy dx dy j) →
      g.is_valid_grid (cx + dx * (d : Int)) (cy + dy * (d : Int)) = true →
      g.get_tile (cx + dx * (d : Int)) (cy + dy * (d : Int)) = Tile.hardWall →
      (g.explosion_arm cx cy dx dy 1 p).length = d - 1) ∧
    (∀ (dx dy : Int) (d : Nat), 1 ≤ d → d ≤ p →
      (∀ j : Nat, 1 ≤ j → j < d → arm_pass g cx cy dx dy j) →
      g.is_valid_grid (cx + dx * (d : Int)) (cy + dy * (d : Int)) = true →
      g.get_tile (cx + dx * (d : Int)) (cy + dy * (d : Int)) ≠ Tile.hardWall →
      g.get_tile (cx + dx * (d : Int)) (cy + dy * (d : Int)) = Tile.softWall →
      (g.explosion_arm cx cy dx dy 1 p).length = d) := by
  refine ⟨by simp [Grid.get_explosion_tiles], ?_, ?_, ?_, ?_⟩
  · intro t
    simp only [Grid.get_explosion_tiles, List.mem_cons, List.mem_append,
      arm_mem_spec_iff]
    tauto
  · intro h
    have h1 := explosion_arm_length_open g cx cy 0 1 p 1
      (fun j hj1 hj2 => h (0, 1) (by simp) j hj1 (by omega))
    have h2 := explosion_arm_length_open g cx cy 0 (-1) p 1
      (fun j hj1 hj2 => h (0, -1) (by simp) j hj1 (by omega))
    have h3 := explosion_arm_length_open g cx cy 1 0 p 1
      (fun j hj1 hj2 => h (1, 0) (by simp) j hj1 (by omega))
    have h4 := explosion_arm_length_open g cx cy (-1) 0 p 1
      (fun j hj1 hj2 => h (-1, 0) (by simp) j hj1 (by omega))
    simp only [Grid.get_explosion_tiles, List.length_cons, List.length_append,
      h1, h2, h3, h4]
    omega
  · intro dx dy d hd1 hd2 hpass hv hh
    exact explosion_arm_length_hard g cx cy dx dy p 1 d hd1 (by omega) hpass hv hh
  · intro dx dy d hd1 hd2 hpass hv hh hs
    rw [explosion_arm_length_soft g cx cy dx dy p 1 d hd1 (by omega) hpass hv hh hs]
    omega

/-- C1 witness: concrete instances — the centre is in the blast of the open
7×7 grid and the power-2 blast there has exactly `4·2+1 = 9` tiles; on
`wallsGrid` the hard wall two tiles above the centre truncates the up arm to
`2-1 = 1` tile, and the soft wall two tiles right leaves exactly 2 tiles
(including the soft wall) on the right arm at power 3. -/
theorem C1_get_explosion_tiles_witness :
    ((3, 3) ∈ (openGrid 7 7).get_explosion_tiles 3 3 2) ∧
    ((openGrid 7 7).get_explosion_tiles 3 3 2).length = 4 * 2 + 1 ∧
    (wallsGrid.explosion_arm 3 3 0 (-1) 1 3).length = 2 - 1 ∧
    (wallsGrid.explosion_arm 3 3 1 0 1 3).length = 2 := by
  have hopen := C1_get_explosion_tiles (openGrid 7 7) 3 3 2
  have hwall := C1_get_explosion_tiles wallsGrid 3 3 3
  refine ⟨hopen.1, hopen.2.2.1 ?_, ?_, ?_⟩
  · intro d hd j hj1 hj2
    fin_cases hd <;> interval_cases j <;> decide
  · refine hwall.2.2.2.1 0 (-1) 2 (by omega) (by omega) ?_ (by decide) (by decide)
    intro j hj1 hj2
    interval_cases j
    decide
  · refine hwall.2.2.2.2 1 0 2 (by omega) (by omega) ?_ (by decide) (by decide)
      (by decide)
    intro j hj1 hj2
    interval_cases j
    decide
theorem astar_neighbors_accept (g : Grid) (avoid_bombs : Bool)
    (px py : Int) (n : Int × Int) :
    ((if !(g.is_valid_grid px py) then none
      else if g.is_empty px py then
        (if avoid_bombs && g.has_bomb px py then none else some (px, py))
      else none) = some n) ↔
      (n = (px, py) ∧ accessible g avoid_bombs n = true) := by
  constructor
  · intro h
    split at h
    · exact absurd h (by simp)
    · split at h
      · split at h
        · exact absurd h (by simp)
        · injection h with h'
          subst h'
          refine ⟨rfl, ?_⟩
          unfold accessible
          rcases Bool.dichotomy avoid_bombs with hb | hb <;> simp_all
      · exact absurd h (by simp)
  · rintro ⟨rfl, hacc⟩
    unfold accessible at hacc
    simp only [Bool.and_eq_true, Bool.not_eq_true'] at hacc
    simp [hacc.1.1, hacc.1.2, hacc.2]

theorem mem_astar_get_neighbors (g : Grid) (pos : Int × Int)
    (avoid_bombs : Bool) (n : Int × Int) :
    n ∈ astar_get_neighbors g pos avoid_bombs ↔
      (n = (pos.1, pos.2 + 1) ∨ n = (pos.1, pos.2 - 1) ∨
        n = (pos.1 + 1, pos.2) ∨ n = (pos.1 - 1, pos.2)) ∧
      accessible g avoid_bombs n = true := by
  have hpt : ∀ a b : Int × Int, a = b ↔ a.1 = b.1 ∧ a.2 = b.2 := by
    intro a b
    exact Prod.ext_iff
  unfold astar_get_neighbors
  rw [List.mem_filterMap]
  constructor
  · rintro ⟨d, hd, hfd⟩
    simp only [List.mem_cons, List.not_mem_nil, or_false] at hd
    rcases hd with rfl | rfl | rfl | rfl <;>
      rw [astar_neighbors_accept] at hfd <;>
      refine ⟨?_, hfd.2⟩
    · left; rw [hfd.1, hpt]; constructor <;> simp
    · right; left; rw [hfd.1, hpt]; constructor <;> · simp; try omega
    · right; right; left; rw [hfd.1, hpt]; constructor <;> simp
    · right; right; right; rw [hfd.1, hpt]; constructor <;> · simp; try omega
  · rintro ⟨hd, hacc⟩
    rcases hd with rfl | rfl | rfl | rfl
    · refine ⟨(0, 1), by simp, (astar_neighbors_accept g avoid_bombs _ _ _).mpr
        ⟨?_, hacc⟩⟩
      rw [hpt]; constructor <;> simp
    · refine ⟨(0, -1), by simp, (astar_neighbors_accept g avoid_bombs _ _ _).mpr
        ⟨?_, hacc⟩⟩
      rw [hpt]; constructor <;> · simp; try omega
    · refine ⟨(1, 0), by simp, (astar_neighbors_accept g avoid_bombs _ _ _).mpr
        ⟨?_, hacc⟩⟩
      rw [hpt]; constructor <;> simp
    · refine ⟨(-1, 0), by simp, (astar_neighbors_accept g avoid_bombs _ _ _).mpr
        ⟨?_, hacc⟩⟩
      rw [hpt]; constructor <;> · simp; try omega

theorem foldl_min_mem (e : Nat × Int × Int) (l : List (Nat × Int × Int)) :
    l.foldl (fun acc x => if entry_le acc x then acc else x) e ∈ e :: l := by
  induction l generalizing e with
  | nil => simp
  | cons x xs ih =>
    simp only [List.foldl_cons]
    by_cases h : entry_le e x
    · simp only [h, if_true]
      rcases (List.mem_cons).mp (ih e) with h' | h'
      · simp [h']
      · simp [h']
    · simp only [h, if_false]
      rcases (List.mem_cons).mp (ih x) with h' | h'
      · simp [h']
      · simp [h']

theorem heap_pop_spec (l : List (Nat × Int × Int)) (e : Nat × Int × Int)
    (rest : List (Nat × Int × Int)) (h : heap_pop l = some (e, rest)) :
    e ∈ l ∧ rest = l.erase e ∧ rest.length + 1 = l.length := by
  match l with
  | [] => simp [heap_pop] at h
  | x :: xs =>
    simp only [heap_pop] at h
    injection h with h'
    have h1 : List.foldl (fun acc x => if entry_le acc x = true then acc else x) x xs = e :=
      congrArg Prod.fst h'
    have h2 := congrArg Prod.snd h'
    simp only at h2
    rw [h1] at h2
    have hmem : e ∈ x :: xs := h1 ▸ foldl_min_mem x xs
    refine ⟨hmem, h2.symm, ?_⟩
    rw [← h2, List.length_erase_of_mem hmem]
    have hpos : 0 < (x :: xs).length := by simp
    omega

theorem lookup_dict_insert_self {β : Type} (k : Int × Int) (v : β)
    (d : List ((Int × Int) × β)) :
    List.lookup k (dict_insert k v d) = some v := by
  simp [dict_insert, List.lookup]

theorem lookup_filter_ne {β : Type} (k k' : Int × Int) (hne : k ≠ k')
    (d : List ((Int × Int) × β)) :
    List.lookup k (d.filter (fun p => !(p.1 == k'))) = List.lookup k d := by
  induction d with
  | nil => simp
  | cons x xs ih =>
    by_cases hx : x.1 = k'
    · have : (!(x.1 == k')) = false := by simp [hx]
      rw [List.filter_cons, this]
      simp only [Bool.false_eq_true, if_false]
      rw [ih]
      have : (k == x.1) = false := by
        simp [hx]
        exact hne
      simp [List.lookup, this]
    · have : (!(x.1 == k')) = true := by simp [hx]
      rw [List.filter_cons, this]
      simp only [if_true]
      by_cases hk : k = x.1
      · simp [List.lookup, hk]
      · have hb : (k == x.1) = false := by simp [hk]
        simp only [List.lookup, hb]
        exact ih

theorem lookup_dict_insert_ne {β : Type} (k k' : Int × Int) (v : β)
    (hne : k' ≠ k) (d : List ((Int × Int) × β)) :
    List.lookup k' (dict_insert k v d) = List.lookup k' d := by
  have hb : (k' == k) = false := by simp [hne]
  simp only [dict_insert, List.lookup, hb]
  exact lookup_filter_ne k' k hne d

theorem mem_keys_iff_lookup {β : Type} (k : Int × Int)
    (d : List ((Int × Int) × β)) :
    k ∈ d.map Prod.fst ↔ ∃ v, List.lookup k d = some v := by
  induction d with
  | nil => simp
  | cons x xs ih =>
    by_cases hk : k = x.1
    · have hb : (k == x.1) = true := by simp [hk]
      simp [List.lookup, hb, hk]
    · have hb : (k == x.1) = false := by simp [hk]
      simp only [List.map_cons, List.mem_cons, List.lookup, hb]
      rw [ih]
      constructor
      · rintro (h | h)
        · exact absurd h hk
        · exact h
      · intro h
        right
        exact h

theorem keys_dict_insert {β : Type} (k : Int × Int) (v : β)
    (d : List ((Int × Int) × β)) :
    (dict_insert k v d).map Prod.fst =
      k :: ((d.map Prod.fst).filter (fun x => !(x == k))) := by
  simp only [dict_insert, List.map_cons, List.cons.injEq, true_and]
  induction d with
  | nil => simp
  | cons x xs ih =>
    rw [List.filter_cons, List.map_cons, List.filter_cons]
    by_cases hx : x.1 = k
    · have : (!(x.1 == k)) = false := by simp [hx]
      rw [this]
      simp only [Bool.false_eq_true, if_false]
      exact ih
    · have : (!(x.1 == k)) = true := by simp [hx]
      rw [this]
      simp only [if_true, List.map_cons]
      rw [ih]

theorem keys_dict_insert_nodup {β : Type} (k : Int × Int) (v : β)
    (d : List ((Int × Int) × β)) (h : (d.map Prod.fst).Nodup) :
    ((dict_insert k v d).map Prod.fst).Nodup := by
  rw [keys_dict_insert]
  refine List.Nodup.cons ?_ (List.Nodup.filter _ h)
  intro hmem
  have := List.of_mem_filter hmem
  simp at this

theorem cost_chain_mono (g : Grid) (avoid_bombs : Bool) (start : Int × Int)
    (cs cs' : List ((Int × Int) × Nat)) (n : Int × Int) (c : Nat)
    (hpt : ∀ (k : Int × Int) (c0 : Nat), List.lookup k cs = some c0 →
      ∃ c1, List.lookup k cs' = some c1 ∧ c1 ≤ c0)
    (h : cost_chain g avoid_bombs start cs n c) :
    cost_chain g avoid_bombs start cs' n c := by
  obtain ⟨l, hlen, hhead, hlast, hnd, hch, hidx⟩ := h
  refine ⟨l, hlen, hhead, hlast, hnd, hch, fun i => ?_⟩
  obtain ⟨ci, hci, hle⟩ := hidx i
  obtain ⟨c1, hc1, hle1⟩ := hpt _ _ hci
  exact ⟨c1, hc1, by omega⟩

theorem cost_chain_bound (g : Grid) (avoid_bombs : Bool) (start : Int × Int)
    (cs : List ((Int × Int) × Nat)) (n : Int × Int) (c : Nat)
    (h : cost_chain g avoid_bombs start cs n c) : c + 1 ≤ cs.length := by
  obtain ⟨l, hlen, -, -, hnd, -, hidx⟩ := h
  have hsub : l ⊆ cs.map Prod.fst := by
    intro a ha
    obtain ⟨i, hi⟩ := List.get_of_mem ha
    obtain ⟨ci, hci, -⟩ := hidx i
    rw [mem_keys_iff_lookup]
    rw [hi] at hci
    exact ⟨ci, hci⟩
  have h1 : l.toFinset.card = l.length := List.toFinset_card_of_nodup hnd
  have h2 : l.toFinset ⊆ (cs.map Prod.fst).toFinset := by
    intro a ha
    rw [List.mem_toFinset] at ha ⊢
    exact hsub ha
  have h3 := Finset.card_le_card h2
  have h4 := List.toFinset_card_le (cs.map Prod.fst)
  rw [List.length_map] at h4
  omega

theorem cost_chain_insert (g : Grid) (avoid_bombs : Bool) (start : Int × Int)
    (cs : List ((Int × Int) × Nat)) (cur next : Int × Int) (c_cur : Nat)
    (hchain_cur : cost_chain g avoid_bombs start cs cur c_cur)
    (hnb : next ∈ astar_get_neighbors g cur avoid_bombs)
    (himp : List.lookup next cs = none ∨
      ∃ cn, List.lookup next cs = some cn ∧ c_cur + 1 < cn) :
    cost_chain g avoid_bombs start (dict_insert next (c_cur + 1) cs) next
      (c_cur + 1) ∧
    (∀ (m : Int × Int) (cm : Nat), cost_chain g avoid_bombs start cs m cm →
      cost_chain g avoid_bombs start (dict_insert next (c_cur + 1) cs) m cm) := by
  have hpt : ∀ (k : Int × Int) (c0 : Nat), List.lookup k cs = some c0 →
      ∃ c1, List.lookup k (dict_insert next (c_cur + 1) cs) = some c1 ∧ c1 ≤ c0 := by
    intro k c0 hk
    by_cases hkn : k = next
    · subst hkn
      rcases himp with hnone | ⟨cn, hcn, hlt⟩
      · rw [hk] at hnone
        exact absurd hnone (by simp)
      · rw [hk] at hcn
        injection hcn with hcn'
        exact ⟨c_cur + 1, lookup_dict_insert_self _ _ _, by omega⟩
    · rw [lookup_dict_insert_ne _ _ _ hkn]
      exact ⟨c0, hk, le_rfl⟩
  obtain ⟨l, hlen, hhead, hlast, hnd, hch, hidx⟩ := hchain_cur
  have hnotmem : next ∉ l := by
    intro hmem
    obtain ⟨i, hi⟩ := List.get_of_mem hmem
    obtain ⟨ci, hci, hle⟩ := hidx i
    rw [hi] at hci
    rcases himp with hnone | ⟨cn, hcn, hlt⟩
    · rw [hci] at hnone
      exact absurd hnone (by simp)
    · rw [hci] at hcn
      injection hcn with hcn'
      omega
  match l, hlen, hhead with
  | a :: t, hlen, hhead =>
    have ha : a = cur := by
      simpa using hhead
    subst ha
    refine ⟨⟨next :: a :: t, ?_, rfl, ?_, ?_, ?_, ?_⟩, fun m cm hm =>
      cost_chain_mono g avoid_bombs start cs _ m cm hpt hm⟩
    · simp only [List.length_cons] at hlen ⊢
      try omega
    · rw [List.getLast?_cons_cons]
      exact hlast
    · exact List.Nodup.cons hnotmem hnd
    · exact List.Chain'.cons hnb hch
    · intro i
      rcases i with ⟨iv, hiv⟩
      cases iv with
      | zero =>
        refine ⟨c_cur + 1, ?_, ?_⟩
        · show List.lookup ((next :: a :: t).get ⟨0, hiv⟩) _ = _
          rw [show (next :: a :: t).get ⟨0, hiv⟩ = next from rfl]
          exact lookup_dict_insert_self _ _ _
        · simp
      | succ j =>
        have hj : j < (a :: t).length := by
          simp only [List.length_cons] at hiv ⊢
          omega
        obtain ⟨ci, hci, hle⟩ := hidx ⟨j, hj⟩
        have hgetne : (a :: t).get ⟨j, hj⟩ ≠ next := by
          intro hc
          exact hnotmem (hc ▸ List.get_mem _ _ _)
        refine ⟨ci, ?_, ?_⟩
        · show List.lookup ((next :: a :: t).get ⟨j + 1, hiv⟩) _ = _
          rw [show (next :: a :: t).get ⟨j + 1, hiv⟩ = (a :: t).get ⟨j, hj⟩ from rfl]
          rw [lookup_dict_insert_ne _ _ _ hgetne]
          exact hci
        · have hle2 : ci + j ≤ c_cur := by simpa using hle
          show ci + (j + 1) ≤ c_cur + 1
          omega

theorem mem_of_lookup_eq_some {β : Type} (k : Int × Int) (v : β)
    (d : List ((Int × Int) × β)) (h : List.lookup k d = some v) : (k, v) ∈ d := by
  induction d with
  | nil => simp at h
  | cons x xs ih =>
    by_cases hk : k = x.1
    · have hb : (k == x.1) = true := by simp [hk]
      simp only [List.lookup, hb] at h
      injection h with h'
      have hx : (k, v) = x := by
        rw [hk, ← h']
      rw [hx]
      exact List.mem_cons_self x xs
    · have hb : (k == x.1) = false := by simp [hk]
      simp only [List.lookup, hb] at h
      right
      exact ih h

theorem mem_astar_universe_of_valid (g : Grid) (start n : Int × Int)
    (h : g.is_valid_grid n.1 n.2 = true) : n ∈ astar_universe g start := by
  unfold astar_universe valid_cells
  rw [Finset.mem_insert]
  right
  rw [Finset.mem_product, Finset.mem_Icc, Finset.mem_Icc]
  simp only [Grid.is_valid_grid, decide_eq_true_eq] at h
  omega

theorem astar_universe_card_le (g : Grid) (start : Int × Int) :
    (astar_universe g start).card ≤ g.width.toNat * g.height.toNat + 1 := by
  unfold astar_universe valid_cells
  have h1 := Finset.card_insert_le start
    (Finset.Icc (0 : Int) (g.width - 1) ×ˢ Finset.Icc (0 : Int) (g.height - 1))
  have h2 : (Finset.Icc (0 : Int) (g.width - 1) ×ˢ
      Finset.Icc (0 : Int) (g.height - 1)).card =
      g.width.toNat * g.height.toNat := by
    rw [Finset.card_product, Int.card_Icc, Int.card_Icc]
    congr 1 <;> omega
  omega

theorem cs_length_le_universe (g : Grid) (start : Int × Int)
    (cs : List ((Int × Int) × Nat)) (hnd : (cs.map Prod.fst).Nodup)
    (hU : ∀ p ∈ cs, p.1 ∈ astar_universe g start) :
    cs.length ≤ (astar_universe g start).card := by
  have h1 : (cs.map Prod.fst).toFinset.card = (cs.map Prod.fst).length :=
    List.toFinset_card_of_nodup hnd
  have h2 : (cs.map Prod.fst).toFinset ⊆ astar_universe g start := by
    intro a ha
    rw [List.mem_toFinset, List.mem_map] at ha
    obtain ⟨p, hp, rfl⟩ := ha
    exact hU p hp
  have h3 := Finset.card_le_card h2
  rw [h1, List.length_map] at h3
  exact h3

theorem potential_sum_insert (g : Grid) (start : Int × Int) (B : Nat)
    (cs : List ((Int × Int) × Nat)) (next : Int × Int) (c_new : Nat)
    (hmem : next ∈ astar_universe g start)
    (hdec : cost_or_default cs B next ≥ c_new + 1) :
    Finset.sum (astar_universe g start)
        (cost_or_default (dict_insert next c_new cs) B) + 1 ≤
      Finset.sum (astar_universe g start) (cost_or_default cs B) := by
  have heq : ∀ x ∈ (astar_universe g start).erase next,
      cost_or_default (dict_insert next c_new cs) B x = cost_or_default cs B x := by
    intro x hx
    have hxne : x ≠ next := Finset.ne_of_mem_erase hx
    unfold cost_or_default
    rw [lookup_dict_insert_ne _ _ _ hxne]
  have hsum_eq : Finset.sum ((astar_universe g start).erase next)
      (cost_or_default (dict_insert next c_new cs) B) =
      Finset.sum ((astar_universe g start).erase next) (cost_or_default cs B) :=
    Finset.sum_congr rfl heq
  have hself : cost_or_default (dict_insert next c_new cs) B next = c_new := by
    unfold cost_or_default
    rw [lookup_dict_insert_self]
    rfl
  have key1 : Finset.sum (astar_universe g start)
      (cost_or_default (dict_insert next c_new cs) B) =
      c_new + Finset.sum ((astar_universe g start).erase next)
        (cost_or_default cs B) := by
    rw [← Finset.add_sum_erase _ _ hmem, hself]
    exact congrArg (HAdd.hAdd c_new) hsum_eq
  have key2 : Finset.sum (astar_universe g start) (cost_or_default cs B) =
      cost_or_default cs B next +
        Finset.sum ((astar_universe g start).erase next) (cost_or_default cs B) := by
    rw [← Finset.add_sum_erase _ _ hmem]
  rw [key1, key2]
  omega

theorem astar_neighbor_ne (g : Grid) (avoid_bombs : Bool) (cur next : Int × Int)
    (h : next ∈ astar_get_neighbors g cur avoid_bombs) : next ≠ cur := by
  rw [mem_astar_get_neighbors] at h
  rcases h.1 with rfl | rfl | rfl | rfl <;>
    · intro hc
      rw [Prod.ext_iff] at hc
      dsimp only at hc
      omega

theorem astar_neighbor_valid (g : Grid) (avoid_bombs : Bool)
    (cur next : Int × Int) (h : next ∈ astar_get_neighbors g cur avoid_bombs) :
    g.is_valid_grid next.1 next.2 = true := by
  rw [mem_astar_get_neighbors] at h
  have := h.2
  unfold accessible at this
  simp only [Bool.and_eq_true] at this
  exact this.1.1

theorem astar_fold_inv (g : Grid) (avoid_bombs : Bool)
    (start goal cur : Int × Int) (f : AStarState → (Int × Int) → AStarState)
    (hreach : ReachableFrom g avoid_bombs start cur)
    (hf_imp : ∀ (s : AStarState) (next : Int × Int) (c_cur : Nat),
      List.lookup cur s.cost_so_far = some c_cur →
      (List.lookup next s.cost_so_far = none ∨
        (∃ c, List.lookup next s.cost_so_far = some c ∧ c_cur + 1 < c)) →
      f s next =
        { frontier := (c_cur + 1 + heuristic goal next, next) :: s.frontier,
          came_from := dict_insert next (some cur) s.came_from,
          cost_so_far := dict_insert next (c_cur + 1) s.cost_so_far })
    (hf_skip : ∀ (s : AStarState) (next : Int × Int) (c_cur c : Nat),
      List.lookup cur s.cost_so_far = some c_cur →
      List.lookup next s.cost_so_far = some c → ¬(c_cur + 1 < c) →
      f s next = s) :
    ∀ (l : List (Int × Int)) (s : AStarState) (c_cur : Nat),
      (∀ n ∈ l, n ∈ astar_get_neighbors g cur avoid_bombs) →
      astar_inv g avoid_bombs start s →
      List.lookup cur s.cost_so_far = some c_cur →
      (astar_inv g avoid_bombs start (l.foldl f s) ∧
        List.lookup cur (l.foldl f s).cost_so_far = some c_cur ∧
        (l.foldl f s).frontier.length +
          Finset.sum (astar_universe g start)
            (cost_or_default (l.foldl f s).cost_so_far
              (g.width.toNat * g.height.toNat + 2)) ≤
          s.frontier.length +
            Finset.sum (astar_universe g start)
              (cost_or_default s.cost_so_far
                (g.width.toNat * g.height.toNat + 2))) := by
  intro l
  induction l with
  | nil =>
    intro s c_cur _ hinv hcur
    exact ⟨hinv, hcur, le_rfl⟩
  | cons next rest ih =>
    intro s c_cur hnbs hinv hcur
    have hnb : next ∈ astar_get_neighbors g cur avoid_bombs := hnbs next (by simp)
    have hrest : ∀ n ∈ rest, n ∈ astar_get_neighbors g cur avoid_bombs :=
      fun n hn => hnbs n (by simp [hn])
    have hne_cur : next ≠ cur := astar_neighbor_ne g avoid_bombs cur next hnb
    have hcur_ne : cur ≠ next := fun h => hne_cur h.symm
    rw [List.foldl_cons]
    have hchain_cur : cost_chain g avoid_bombs start s.cost_so_far cur c_cur :=
      hinv.2.2.2.2 (cur, c_cur) (mem_of_lookup_eq_some cur c_cur _ hcur)
    have hclen : c_cur + 1 ≤ s.cost_so_far.length :=
      cost_chain_bound g avoid_bombs start s.cost_so_far cur c_cur hchain_cur
    have hcslen : s.cost_so_far.length ≤ g.width.toNat * g.height.toNat + 1 := by
      have h1 := cs_length_le_universe g start s.cost_so_far hinv.2.2.1
        (fun p hp => hinv.2.2.2.1 p hp)
      have h2 := astar_universe_card_le g start
      omega
    have hpush : ∀ himp : List.lookup next s.cost_so_far = none ∨
        (∃ c, List.lookup next s.cost_so_far = some c ∧ c_cur + 1 < c),
        astar_inv g avoid_bombs start (List.foldl f (f s next) rest) ∧
          List.lookup cur (List.foldl f (f s next) rest).cost_so_far = some c_cur ∧
          (List.foldl f (f s next) rest).frontier.length +
            Finset.sum (astar_universe g start)
              (cost_or_default (List.foldl f (f s next) rest).cost_so_far
                (g.width.toNat * g.height.toNat + 2)) ≤
            s.frontier.length +
              Finset.sum (astar_universe g start)
                (cost_or_default s.cost_so_far
                  (g.width.toNat * g.height.toNat + 2)) := by
      intro himp
      rw [hf_imp s next c_cur hcur himp]
      have hchains := cost_chain_insert g avoid_bombs start s.cost_so_far cur next
        c_cur hchain_cur hnb himp
      have hinv1 : astar_inv g avoid_bombs start
          { frontier := (c_cur + 1 + heuristic goal next, next) :: s.frontier,
            came_from := dict_insert next (some cur) s.came_from,
            cost_so_far := dict_insert next (c_cur + 1) s.cost_so_far } := by
        refine ⟨?_, ?_, ?_, ?_, ?_⟩
        · intro e he
          rcases List.mem_cons.mp he with rfl | he'
          · exact ⟨c_cur + 1, lookup_dict_insert_self _ _ _⟩
          · obtain ⟨c, hc⟩ := hinv.1 e he'
            by_cases hen : e.2 = next
            · exact ⟨c_cur + 1, by rw [hen]; exact lookup_dict_insert_self _ _ _⟩
            · exact ⟨c, by rw [lookup_dict_insert_ne _ _ _ hen]; exact hc⟩
        · intro p hp
          rcases List.mem_cons.mp hp with rfl | hp'
          · exact ReachableFrom.step hreach hnb
          · exact hinv.2.1 p (List.mem_of_mem_filter hp')
        · exact keys_dict_insert_nodup _ _ _ hinv.2.2.1
        · intro p hp
          rcases List.mem_cons.mp hp with rfl | hp'
          · exact mem_astar_universe_of_valid g start next
              (astar_neighbor_valid g avoid_bombs cur next hnb)
          · exact hinv.2.2.2.1 p (List.mem_of_mem_filter hp')
        · intro p hp
          rcases List.mem_cons.mp hp with rfl | hp'
          · exact hchains.1
          · exact hchains.2 p.1 p.2 (hinv.2.2.2.2 p (List.mem_of_mem_filter hp'))
      have hcur1 : List.lookup cur
          (dict_insert next (c_cur + 1) s.cost_so_far) = some c_cur := by
        rw [lookup_dict_insert_ne _ _ _ hcur_ne]
        exact hcur
      obtain ⟨hA, hB, hC⟩ := ih
        { frontier := (c_cur + 1 + heuristic goal next, next) :: s.frontier,
          came_from := dict_insert next (some cur) s.came_from,
          cost_so_far := dict_insert next (c_cur + 1) s.cost_so_far }
        c_cur hrest hinv1 hcur1
      refine ⟨hA, hB, le_trans hC ?_⟩
      have hdec : cost_or_default s.cost_so_far
          (g.width.toNat * g.height.toNat + 2) next ≥ (c_cur + 1) + 1 := by
        unfold cost_or_default
        rcases himp with hnone | ⟨c, hc, hlt⟩
        · rw [hnone]
          show c_cur + 1 + 1 ≤ g.width.toNat * g.height.toNat + 2
          omega
        · rw [hc]
          show c_cur + 1 + 1 ≤ c
          omega
      have hsum := potential_sum_insert g start
        (g.width.toNat * g.height.toNat + 2) s.cost_so_far next (c_cur + 1)
        (mem_astar_universe_of_valid g start next
          (astar_neighbor_valid g avoid_bombs cur next hnb))
        hdec
      dsimp only
      simp only [List.length_cons]
      omega
    cases hlook : List.lookup next s.cost_so_far with
    | none => exact hpush (Or.inl hlook)
    | some cprev =>
      by_cases himpb : c_cur + 1 < cprev
      · exact hpush (Or.inr ⟨cprev, hlook, himpb⟩)
      · rw [hf_skip s next c_cur cprev hcur hlook himpb]
        exact ih s c_cur hrest hinv hcur

theorem astar_body_imp (goal cur : Int × Int) (s : AStarState) (next : Int × Int)
    (c_cur : Nat) (hcur : List.lookup cur s.cost_so_far = some c_cur)
    (himp : List.lookup next s.cost_so_far = none ∨
      (∃ c, List.lookup next s.cost_so_far = some c ∧ c_cur + 1 < c)) :
    (fun (s : AStarState) next_pos =>
      let new_cost := ((s.cost_so_far.lookup cur).getD 0) + 1
      let improve :=
        match s.cost_so_far.lookup next_pos with
        | none => true
        | some c => decide (new_cost < c)
      if improve then
        { frontier := (new_cost + heuristic goal next_pos, next_pos) :: s.frontier,
          came_from := dict_insert next_pos (some cur) s.came_from,
          cost_so_far := dict_insert next_pos new_cost s.cost_so_far }
      else s) s next =
      { frontier := (c_cur + 1 + heuristic goal next, next) :: s.frontier,
        came_from := dict_insert next (some cur) s.came_from,
        cost_so_far := dict_insert next (c_cur + 1) s.cost_so_far } := by
  rcases himp with hnone | ⟨c, hc, hlt⟩
  · simp only [hcur, hnone, Option.getD_some, if_true]
  · have hdec : decide (c_cur + 1 < c) = true := by simp [hlt]
    simp only [hcur, hc, Option.getD_some, hdec, if_true]

theorem astar_body_skip (goal cur : Int × Int) (s : AStarState) (next : Int × Int)
    (c_cur c : Nat) (hcur : List.lookup cur s.cost_so_far = some c_cur)
    (hc : List.lookup next s.cost_so_far = some c) (hnlt : ¬ (c_cur + 1 < c)) :
    (fun (s : AStarState) next_pos =>
      let new_cost := ((s.cost_so_far.lookup cur).getD 0) + 1
      let improve :=
        match s.cost_so_far.lookup next_pos with
        | none => true
        | some c => decide (new_cost < c)
      if improve then
        { frontier := (new_cost + heuristic goal next_pos, next_pos) :: s.frontier,
          came_from := dict_insert next_pos (some cur) s.came_from,
          cost_so_far := dict_insert next_pos new_cost s.cost_so_far }
      else s) s next = s := by
  have hdec : decide (c_cur + 1 < c) = false := by simp [hnlt]
  simp only [hcur, hc, Option.getD_some, hdec, Bool.false_eq_true, if_false]

theorem astar_step_inv (g : Grid) (avoid_bombs : Bool) (start goal : Int × Int)
    (st : AStarState) (e : Nat × Int × Int) (rest : List (Nat × Int × Int))
    (hinv : astar_inv g avoid_bombs start st)
    (hpop : heap_pop st.frontier = some (e, rest)) :
    astar_inv g avoid_bombs start
      ((astar_get_neighbors g e.2 avoid_bombs).foldl
        (fun s next_pos =>
          let new_cost := ((s.cost_so_far.lookup e.2).getD 0) + 1
          let improve :=
            match s.cost_so_far.lookup next_pos with
            | none => true
            | some c => decide (new_cost < c)
          if improve then
            { frontier := (new_cost + heuristic goal next_pos, next_pos) :: s.frontier,
              came_from := dict_insert next_pos (some e.2) s.came_from,
              cost_so_far := dict_insert next_pos new_cost s.cost_so_far }
          else s)
        { st with frontier := rest }) ∧
    astar_potential g start
      ((astar_get_neighbors g e.2 avoid_bombs).foldl
        (fun s next_pos =>
          let new_cost := ((s.cost_so_far.lookup e.2).getD 0) + 1
          let improve :=
            match s.cost_so_far.lookup next_pos with
            | none => true
            | some c => decide (new_cost < c)
          if improve then
            { frontier := (new_cost + heuristic goal next_pos, next_pos) :: s.frontier,
              came_from := dict_insert next_pos (some e.2) s.came_from,
              cost_so_far := dict_insert next_pos new_cost s.cost_so_far }
          else s)
        { st with frontier := rest }) <
      astar_potential g start st := by
  obtain ⟨hmem, hrest, hlen⟩ := heap_pop_spec st.frontier e rest hpop
  obtain ⟨c_cur, hcur⟩ := hinv.1 e hmem
  have hreach : ReachableFrom g avoid_bombs start e.2 := by
    obtain ⟨c, hc⟩ := hinv.1 e hmem
    exact hinv.2.1 (e.2, c) (mem_of_lookup_eq_some e.2 c _ hc)
  have hinv' : astar_inv g avoid_bombs start { st with frontier := rest } := by
    refine ⟨?_, hinv.2.1, hinv.2.2.1, hinv.2.2.2.1, hinv.2.2.2.2⟩
    intro x hx
    refine hinv.1 x ?_
    rw [hrest] at hx
    exact List.mem_of_mem_erase hx
  have hmain := astar_fold_inv g avoid_bombs start goal e.2
    (fun s next_pos =>
      let new_cost := ((s.cost_so_far.lookup e.2).getD 0) + 1
      let improve :=
        match s.cost_so_far.lookup next_pos with
        | none => true
        | some c => decide (new_cost < c)
      if improve then
        { frontier := (new_cost + heuristic goal next_pos, next_pos) :: s.frontier,
          came_from := dict_insert next_pos (some e.2) s.came_from,
          cost_so_far := dict_insert next_pos new_cost s.cost_so_far }
      else s)
    hreach
    (fun s next c_cur hc himp => astar_body_imp goal e.2 s next c_cur hc himp)
    (fun s next c_cur c hc hlook hnlt =>
      astar_body_skip goal e.2 s next c_cur c hc hlook hnlt)
    (astar_get_neighbors g e.2 avoid_bombs)
    { st with frontier := rest } c_cur (fun n hn => hn) hinv' hcur
  refine ⟨hmain.1, ?_⟩
  have hpot := hmain.2.2
  unfold astar_potential
  dsimp only at hpot ⊢
  omega

theorem astar_loop_unreachable (g : Grid) (avoid_bombs : Bool)
    (start goal : Int × Int)
    (hgoal : ¬ ReachableFrom g avoid_bombs start goal) :
    ∀ (fuel : Nat) (st : AStarState), astar_inv g avoid_bombs start st →
      astar_potential g start st < fuel →
      astar_loop g goal avoid_bombs start fuel st = some none := by
  intro fuel
  induction fuel with
  | zero =>
    intro st _ hpot
    omega
  | succ fuel ih =>
    intro st hinv hpot
    cases hpop : heap_pop st.frontier with
    | none => simp [astar_loop, hpop]
    | some pr =>
      obtain ⟨e, rest⟩ := pr
      have hne : e.2 ≠ goal := by
        intro h
        obtain ⟨hmem, -, -⟩ := heap_pop_spec st.frontier e rest hpop
        obtain ⟨c, hc⟩ := hinv.1 e hmem
        exact hgoal (h ▸ hinv.2.1 (e.2, c) (mem_of_lookup_eq_some e.2 c _ hc))
      have hstep := astar_step_inv g avoid_bombs start goal st e rest hinv hpop
      have hlen : rest.length + 1 = st.frontier.length :=
        (heap_pop_spec st.frontier e rest hpop).2.2
      have hunf : astar_loop g goal avoid_bombs start (fuel + 1) st =
          astar_loop g goal avoid_bombs start fuel
            ((astar_get_neighbors g e.2 avoid_bombs).foldl
              (fun s next_pos =>
                let new_cost := ((s.cost_so_far.lookup e.2).getD 0) + 1
                let improve :=
                  match s.cost_so_far.lookup next_pos with
                  | none => true
                  | some c => decide (new_cost < c)
                if improve then
                  { frontier := (new_cost + heuristic goal next_pos, next_pos) ::
                      s.frontier,
                    came_from := dict_insert next_pos (some e.2) s.came_from,
                    cost_so_far := dict_insert next_pos new_cost s.cost_so_far }
                else s)
              { st with frontier := rest }) := by
        simp only [astar_loop, hpop]
        rw [if_neg hne]
      rw [hunf]
      exact ih _ hstep.1 (by omega)

theorem cpos_zero (s u : Int × Int) : cpos s u 0 = s := by
  simp [cpos]

theorem cpos_inj (s u : Int × Int)
    (hu : u = (1, 0) ∨ u = (-1, 0) ∨ u = (0, 1) ∨ u = (0, -1)) :
    ∀ i j : Nat, cpos s u i = cpos s u j → i = j := by
  intro i j h
  rcases hu with rfl | rfl | rfl | rfl <;>
    · rw [cpos, cpos, Prod.mk.injEq] at h
      omega

theorem corridor_path_length (s u : Int × Int) (d : Nat) :
    (corridor_path s u d).length = d + 1 := by
  unfold corridor_path
  rw [List.length_map, List.length_range]

theorem heuristic_cpos (s u : Int × Int) (d : Nat)
    (hu : u = (1, 0) ∨ u = (-1, 0) ∨ u = (0, 1) ∨ u = (0, -1)) :
    heuristic s (cpos s u d) = d := by
  rcases hu with rfl | rfl | rfl | rfl <;>
    · unfold heuristic cpos
      dsimp only
      omega

theorem corridor_cs_zero (s u : Int × Int) :
    corridor_cs s u 0 = [(cpos s u 0, 0)] := by
  unfold corridor_cs
  rfl

theorem corridor_cs_succ (s u : Int × Int) (k : Nat) :
    corridor_cs s u (k + 1) = (cpos s u (k + 1), k + 1) :: corridor_cs s u k := by
  unfold corridor_cs
  rw [List.range_succ]
  simp

theorem corridor_cf_zero (s u : Int × Int) :
    corridor_cf s u 0 = [(cpos s u 0, none)] := by
  unfold corridor_cf
  rfl

theorem corridor_cf_succ (s u : Int × Int) (k : Nat) :
    corridor_cf s u (k + 1) =
      (cpos s u (k + 1), some (cpos s u k)) :: corridor_cf s u k := by
  unfold corridor_cf
  rw [List.range_succ]
  simp

theorem lookup_corridor_cs (s u : Int × Int)
    (hu : u = (1, 0) ∨ u = (-1, 0) ∨ u = (0, 1) ∨ u = (0, -1)) :
    ∀ (k i : Nat), List.lookup (cpos s u i) (corridor_cs s u k) =
      if i ≤ k then some i else none := by
  have hinj := cpos_inj s u hu
  intro k
  induction k with
  | zero =>
    intro i
    rw [corridor_cs_zero]
    by_cases hi : i = 0
    · subst hi
      simp [List.lookup]
    · have hne : (cpos s u i == cpos s u 0) = false := by
        simp only [beq_eq_false_iff_ne, ne_eq]
        intro h
        exact hi (hinj i 0 h)
      simp [List.lookup, hne, hi]
  | succ k ih =>
    intro i
    rw [corridor_cs_succ]
    by_cases hi : i = k + 1
    · subst hi
      simp [List.lookup]
    · have hne : (cpos s u i == cpos s u (k + 1)) = false := by
        simp only [beq_eq_false_iff_ne, ne_eq]
        intro h
        exact hi (hinj i (k + 1) h)
      simp only [List.lookup, hne]
      rw [ih i]
      by_cases hik : i ≤ k
      · have h1 : i ≤ k + 1 := by omega
        rw [if_pos hik, if_pos h1]
      · have h1 : ¬ i ≤ k + 1 := by omega
        rw [if_neg hik, if_neg h1]

theorem lookup_corridor_cf (s u : Int × Int)
    (hu : u = (1, 0) ∨ u = (-1, 0) ∨ u = (0, 1) ∨ u = (0, -1)) :
    ∀ (k i : Nat), List.lookup (cpos s u i) (corridor_cf s u k) =
      if i ≤ k then some (if i = 0 then none else some (cpos s u (i - 1)))
      else none := by
  have hinj := cpos_inj s u hu
  intro k
  induction k with
  | zero =>
    intro i
    rw [corridor_cf_zero]
    by_cases hi : i = 0
    · subst hi
      simp [List.lookup]
    · have hne : (cpos s u i == cpos s u 0) = false := by
        simp only [beq_eq_false_iff_ne, ne_eq]
        intro h
        exact hi (hinj i 0 h)
      simp [List.lookup, hne, hi]
  | succ k ih =>
    intro i
    rw [corridor_cf_succ]
    by_cases hi : i = k + 1
    · subst hi
      simp [List.lookup]
    · have hne : (cpos s u i == cpos s u (k + 1)) = false := by
        simp only [beq_eq_false_iff_ne, ne_eq]
        intro h
        exact hi (hinj i (k + 1) h)
      simp only [List.lookup, hne]
      rw [ih i]
      by_cases hik : i ≤ k
      · have h1 : i ≤ k + 1 := by omega
        rw [if_pos hik, if_pos h1]
      · have h1 : ¬ i ≤ k + 1 := by omega
        rw [if_neg hik, if_neg h1]

theorem filter_key_ne_eq_self {β : Type} (l : List ((Int × Int) × β))
    (key : Int × Int) (h : ∀ p ∈ l, p.1 ≠ key) :
    l.filter (fun p => !(p.1 == key)) = l := by
  apply List.filter_eq_self.mpr
  intro p hp
  simp [h p hp]

theorem corridor_cs_key (s u : Int × Int) (k : Nat) (p : (Int × Int) × Nat)
    (hp : p ∈ corridor_cs s u k) : ∃ i, i ≤ k ∧ p.1 = cpos s u i := by
  unfold corridor_cs at hp
  rw [List.mem_map] at hp
  obtain ⟨i, hi, hpe⟩ := hp
  rw [List.mem_reverse, List.mem_range] at hi
  exact ⟨i, by omega, by rw [← hpe]⟩

theorem corridor_cf_key (s u : Int × Int) (k : Nat)
    (p : (Int × Int) × Option (Int × Int))
    (hp : p ∈ corridor_cf s u k) : ∃ i, i ≤ k ∧ p.1 = cpos s u i := by
  unfold corridor_cf at hp
  rw [List.mem_map] at hp
  obtain ⟨i, hi, hpe⟩ := hp
  rw [List.mem_reverse, List.mem_range] at hi
  exact ⟨i, by omega, by rw [← hpe]⟩

theorem dict_insert_corridor_cs (s u : Int × Int)
    (hu : u = (1, 0) ∨ u = (-1, 0) ∨ u = (0, 1) ∨ u = (0, -1))
    (k : Nat) (v : Nat) :
    dict_insert (cpos s u (k + 1)) v (corridor_cs s u k) =
      (cpos s u (k + 1), v) :: corridor_cs s u k := by
  unfold dict_insert
  rw [filter_key_ne_eq_self]
  intro p hp
  obtain ⟨i, hik, hpi⟩ := corridor_cs_key s u k p hp
  rw [hpi]
  intro h
  have := cpos_inj s u hu i (k + 1) h
  omega

theorem dict_insert_corridor_cf (s u : Int × Int)
    (hu : u = (1, 0) ∨ u = (-1, 0) ∨ u = (0, 1) ∨ u = (0, -1))
    (k : Nat) (v : Option (Int × Int)) :
    dict_insert (cpos s u (k + 1)) v (corridor_cf s u k) =
      (cpos s u (k + 1), v) :: corridor_cf s u k := by
  unfold dict_insert
  rw [filter_key_ne_eq_self]
  intro p hp
  obtain ⟨i, hik, hpi⟩ := corridor_cf_key s u k p hp
  rw [hpi]
  intro h
  have := cpos_inj s u hu i (k + 1) h
  omega

theorem heap_pop_singleton (p : Nat) (x : Int × Int) :
    heap_pop [(p, x)] = some ((p, x), []) := by
  simp [heap_pop]

theorem foldl_eval_one {α β : Type} (f : α → β → α) (s0 R : α) (a : β)
    (h : f s0 a = R) : List.foldl f s0 [a] = R := by
  simp [h]

theorem foldl_eval_two {α β : Type} (f : α → β → α) (s0 R : α) (a b : β)
    (h1 : f s0 a = R) (h2 : f R b = R) : List.foldl f s0 [a, b] = R := by
  simp [h1, h2]

theorem foldl_eval_skip_two {α β : Type} (f : α → β → α) (s0 R : α) (a b : β)
    (h1 : f s0 a = s0) (h2 : f s0 b = R) : List.foldl f s0 [a, b] = R := by
  simp [h1, h2]

theorem list_eq_singleton_of {α : Type} (t : List α) (b : α)
    (hball : ∀ y ∈ t, y = b) (hb : b ∈ t) (hnd : t.Nodup) : t = [b] := by
  cases t with
  | nil => simp at hb
  | cons y t' =>
    have hy : y = b := hball y (by simp)
    subst hy
    cases t' with
    | nil => rfl
    | cons z t'' =>
      exfalso
      have hz : z = y := hball z (by simp)
      subst hz
      simp at hnd

theorem list_eq_singleton {α : Type} (l : List α) (a : α)
    (hmem : ∀ x, x ∈ l ↔ x = a) (hnd : l.Nodup) : l = [a] := by
  have ha : a ∈ l := (hmem a).mpr rfl
  cases l with
  | nil => simp at ha
  | cons x t =>
    have hx : x = a := (hmem x).mp (by simp)
    subst hx
    cases t with
    | nil => rfl
    | cons y t' =>
      exfalso
      have hy : y = x := (hmem y).mp (by simp)
      subst hy
      simp at hnd

theorem list_eq_pair {α : Type} (l : List α) (a b : α) (hab : a ≠ b)
    (hmem : ∀ x, x ∈ l ↔ (x = a ∨ x = b)) (hnd : l.Nodup) :
    l = [a, b] ∨ l = [b, a] := by
  have ha : a ∈ l := (hmem a).mpr (Or.inl rfl)
  have hb : b ∈ l := (hmem b).mpr (Or.inr rfl)
  cases l with
  | nil => simp at ha
  | cons x t =>
    have hx := (hmem x).mp (by simp)
    have hndt : t.Nodup := (List.nodup_cons.mp hnd).2
    have hxnt : x ∉ t := (List.nodup_cons.mp hnd).1
    rcases hx with rfl | rfl
    · left
      have hbt : b ∈ t := by
        rcases List.mem_cons.mp hb with h | h
        · exact absurd h.symm hab
        · exact h
      have hball : ∀ y ∈ t, y = b := by
        intro y hy
        rcases (hmem y).mp (List.mem_cons_of_mem _ hy) with rfl | rfl
        · exact absurd hy hxnt
        · rfl
      rw [list_eq_singleton_of t b hball hbt hndt]
    · right
      have hat : a ∈ t := by
        rcases List.mem_cons.mp ha with h | h
        · exact absurd h hab
        · exact h
      have hball : ∀ y ∈ t, y = a := by
        intro y hy
        rcases (hmem y).mp (List.mem_cons_of_mem _ hy) with rfl | rfl
        · rfl
        · exact absurd hy hxnt
      rw [list_eq_singleton_of t a hball hat hndt]

theorem astar_get_neighbors_nodup (g : Grid) (pos : Int × Int)
    (avoid_bombs : Bool) : (astar_get_neighbors g pos avoid_bombs).Nodup := by
  unfold astar_get_neighbors
  refine List.Nodup.filterMap ?_ (by decide)
  intro a a' b hb hb'
  rw [Option.mem_def] at hb hb'
  rw [astar_neighbors_accept] at hb hb'
  have h1 := hb.1
  rw [hb'.1] at h1
  rw [Prod.mk.injEq] at h1
  rw [Prod.ext_iff]
  omega

theorem corridor_cf_length (s u : Int × Int) (d : Nat) :
    (corridor_cf s u d).length = d + 1 := by
  unfold corridor_cf
  rw [List.length_map, List.length_reverse, List.length_range]

theorem reconstruct_go_corridor (s u : Int × Int)
    (hu : u = (1, 0) ∨ u = (-1, 0) ∨ u = (0, 1) ∨ u = (0, -1)) (d : Nat) :
    ∀ (k : Nat), k ≤ d → ∀ (path : List (Int × Int)) (fuel : Nat),
      k + 1 ≤ fuel →
      reconstruct_go (corridor_cf s u d) s (cpos s u k) path fuel =
        (path ++ ((List.range k).reverse.map (cpos s u))).reverse := by
  have hinj := cpos_inj s u hu
  intro k
  induction k with
  | zero =>
    intro _ path fuel hfuel
    cases fuel with
    | zero => omega
    | succ f =>
      rw [reconstruct_go, if_pos (cpos_zero s u)]
      simp
  | succ k ih =>
    intro hkd path fuel hfuel
    cases fuel with
    | zero => omega
    | succ f =>
      have hne : cpos s u (k + 1) ≠ s := by
        intro h
        have := hinj (k + 1) 0 (h.trans (cpos_zero s u).symm)
        omega
      rw [reconstruct_go, if_neg hne]
      have hlook := lookup_corridor_cf s u hu d (k + 1)
      rw [if_pos hkd] at hlook
      have hk10 : ¬ (k + 1 = 0) := by omega
      rw [if_neg hk10] at hlook
      have hk1 : k + 1 - 1 = k := by omega
      rw [hk1] at hlook
      rw [hlook]
      dsimp only
      rw [ih (by omega) (path ++ [cpos s u k]) f (by omega)]
      rw [List.range_succ]
      simp [List.append_assoc]

theorem reconstruct_path_corridor (s u : Int × Int)
    (hu : u = (1, 0) ∨ u = (-1, 0) ∨ u = (0, 1) ∨ u = (0, -1)) (d : Nat) :
    reconstruct_path (corridor_cf s u d) s (cpos s u d) =
      corridor_path s u d := by
  unfold reconstruct_path
  rw [corridor_cf_length]
  rw [reconstruct_go_corridor s u hu d d (le_refl d) [cpos s u d] (d + 1 + 1)
    (by omega)]
  rw [corridor_path]
  rw [List.range_succ]
  simp

theorem corridor_step (g : Grid) (avoid_bombs : Bool) (s u : Int × Int)
    (d : Nat)
    (hu : u = (1, 0) ∨ u = (-1, 0) ∨ u = (0, 1) ∨ u = (0, -1))
    (hcorr : ∀ k : Nat, k ≤ d → ∀ n : Int × Int,
      n ∈ astar_get_neighbors g (cpos s u k) avoid_bombs ↔
        (1 ≤ k ∧ n = cpos s u (k - 1)) ∨ (k < d ∧ n = cpos s u (k + 1)))
    (k : Nat) (hk : k < d) (p fuel : Nat) :
    astar_loop g (cpos s u d) avoid_bombs s (fuel + 1)
      { frontier := [(p, cpos s u k)], came_from := corridor_cf s u k,
        cost_so_far := corridor_cs s u k } =
    astar_loop g (cpos s u d) avoid_bombs s fuel
      { frontier := [(k + 1 + heuristic (cpos s u d) (cpos s u (k + 1)),
          cpos s u (k + 1))],
        came_from := corridor_cf s u (k + 1),
        cost_so_far := corridor_cs s u (k + 1) } := by
  have hinj := cpos_inj s u hu
  have hne_goal : cpos s u k ≠ cpos s u d := by
    intro h
    have := hinj k d h
    omega
  simp only [astar_loop, heap_pop_singleton]
  rw [if_neg hne_goal]
  refine congrArg (astar_loop g (cpos s u d) avoid_bombs s fuel) ?_
  have hcur : List.lookup (cpos s u k) (corridor_cs s u k) = some k := by
    rw [lookup_corridor_cs s u hu k k, if_pos (le_refl k)]
  have hfwd : List.lookup (cpos s u (k + 1)) (corridor_cs s u k) = none := by
    rw [lookup_corridor_cs s u hu k (k + 1), if_neg (by omega)]
  have hR : AStarState.mk
      [(k + 1 + heuristic (cpos s u d) (cpos s u (k + 1)), cpos s u (k + 1))]
      (dict_insert (cpos s u (k + 1)) (some (cpos s u k)) (corridor_cf s u k))
      (dict_insert (cpos s u (k + 1)) (k + 1) (corridor_cs s u k)) =
      AStarState.mk
      [(k + 1 + heuristic (cpos s u d) (cpos s u (k + 1)), cpos s u (k + 1))]
      (corridor_cf s u (k + 1))
      (corridor_cs s u (k + 1)) := by
    rw [dict_insert_corridor_cf s u hu k, dict_insert_corridor_cs s u hu k,
      corridor_cf_succ, corridor_cs_succ]
  have hnodup := astar_get_neighbors_nodup g (cpos s u k) avoid_bombs
  by_cases hk0 : k = 0
  · subst hk0
    have hmem : ∀ x, x ∈ astar_get_neighbors g (cpos s u 0) avoid_bombs ↔
        x = cpos s u 1 := by
      intro x
      rw [hcorr 0 (by omega) x]
      constructor
      · rintro (⟨h1, _⟩ | ⟨_, h2⟩)
        · omega
        · exact h2
      · intro h
        exact Or.inr ⟨by omega, h⟩
    rw [list_eq_singleton _ _ hmem hnodup]
    refine foldl_eval_one _ _ _ _ ?_
    exact Eq.trans
      (astar_body_imp (cpos s u d) (cpos s u 0) _ (cpos s u 1) 0 hcur
        (Or.inl hfwd)) hR
  · have hk1 : 1 ≤ k := by omega
    have hbwd : List.lookup (cpos s u (k - 1)) (corridor_cs s u k) =
        some (k - 1) := by
      rw [lookup_corridor_cs s u hu k (k - 1), if_pos (by omega)]
    have hmem : ∀ x, x ∈ astar_get_neighbors g (cpos s u k) avoid_bombs ↔
        (x = cpos s u (k + 1) ∨ x = cpos s u (k - 1)) := by
      intro x
      rw [hcorr k (by omega) x]
      constructor
      · rintro (⟨_, h⟩ | ⟨_, h⟩)
        · exact Or.inr h
        · exact Or.inl h
      · rintro (h | h)
        · exact Or.inr ⟨hk, h⟩
        · exact Or.inl ⟨hk1, h⟩
    have hab : cpos s u (k + 1) ≠ cpos s u (k - 1) := by
      intro h
      have := hinj (k + 1) (k - 1) h
      omega
    have hcur1 : List.lookup (cpos s u k) (corridor_cs s u (k + 1)) =
        some k := by
      rw [lookup_corridor_cs s u hu (k + 1) k, if_pos (by omega)]
    have hbwd1 : List.lookup (cpos s u (k - 1)) (corridor_cs s u (k + 1)) =
        some (k - 1) := by
      rw [lookup_corridor_cs s u hu (k + 1) (k - 1), if_pos (by omega)]
    rcases list_eq_pair _ _ _ hab hmem hnodup with hl | hl
    · rw [hl]
      refine foldl_eval_two _ _ _ _ _ ?_ ?_
      · exact Eq.trans
          (astar_body_imp (cpos s u d) (cpos s u k) _ (cpos s u (k + 1)) k
            hcur (Or.inl hfwd)) hR
      · exact astar_body_skip (cpos s u d) (cpos s u k) _ (cpos s u (k - 1))
          k (k - 1) hcur1 hbwd1 (by omega)
    · rw [hl]
      refine foldl_eval_skip_two _ _ _ _ _ ?_ ?_
      · exact astar_body_skip (cpos s u d) (cpos s u k) _ (cpos s u (k - 1))
          k (k - 1) hcur hbwd (by omega)
      · exact Eq.trans
          (astar_body_imp (cpos s u d) (cpos s u k) _ (cpos s u (k + 1)) k
            hcur (Or.inl hfwd)) hR

theorem corridor_loop (g : Grid) (avoid_bombs : Bool) (s u : Int × Int)
    (d : Nat)
    (hu : u = (1, 0) ∨ u = (-1, 0) ∨ u = (0, 1) ∨ u = (0, -1))
    (hcorr : ∀ k : Nat, k ≤ d → ∀ n : Int × Int,
      n ∈ astar_get_neighbors g (cpos s u k) avoid_bombs ↔
        (1 ≤ k ∧ n = cpos s u (k - 1)) ∨ (k < d ∧ n = cpos s u (k + 1))) :
    ∀ (fuel k p : Nat), k ≤ d → d - k < fuel →
      astar_loop g (cpos s u d) avoid_bombs s fuel
        { frontier := [(p, cpos s u k)], came_from := corridor_cf s u k,
          cost_so_far := corridor_cs s u k } =
      some (some (corridor_path s u d)) := by
  intro fuel
  induction fuel with
  | zero =>
    intro k p _ hf
    omega
  | succ fuel ih =>
    intro k p hk hf
    by_cases hkd : k = d
    · subst hkd
      simp only [astar_loop, heap_pop_singleton]
      rw [if_pos trivial]
      rw [reconstruct_path_corridor s u hu k]
    · have hklt : k < d := by omega
      rw [corridor_step g avoid_bombs s u d hu hcorr k hklt p fuel]
      exact ih (k + 1)
        (k + 1 + heuristic (cpos s u d) (cpos s u (k + 1)))
        (by omega) (by omega)

theorem corridor_find_path (g : Grid) (avoid_bombs : Bool) (s u : Int × Int)
    (d : Nat)
    (hu : u = (1, 0) ∨ u = (-1, 0) ∨ u = (0, 1) ∨ u = (0, -1))
    (hd : 1 ≤ d)
    (hcorr : ∀ k : Nat, k ≤ d → ∀ n : Int × Int,
      n ∈ astar_get_neighbors g (cpos s u k) avoid_bombs ↔
        (1 ≤ k ∧ n = cpos s u (k - 1)) ∨ (k < d ∧ n = cpos s u (k + 1))) :
    find_path g s (cpos s u d) avoid_bombs = some (corridor_path s u d) := by
  have h0mem : cpos s u 0 ∈ astar_get_neighbors g (cpos s u 1) avoid_bombs :=
    (hcorr 1 (by omega) (cpos s u 0)).mpr (Or.inl ⟨le_refl 1, rfl⟩)
  have hdmem : cpos s u d ∈
      astar_get_neighbors g (cpos s u (d - 1)) avoid_bombs := by
    refine (hcorr (d - 1) (by omega) (cpos s u d)).mpr (Or.inr ⟨by omega, ?_⟩)
    rw [Nat.sub_add_cancel hd]
  have hv0 := astar_neighbor_valid g avoid_bombs _ _ h0mem
  have hvd := astar_neighbor_valid g avoid_bombs _ _ hdmem
  rw [cpos_zero] at hv0
  unfold Grid.is_valid_grid at hv0 hvd
  rw [decide_eq_true_eq] at hv0 hvd
  have hfuel : d < astar_fuel g := by
    have hwh : astar_fuel g =
        (g.width.toNat * g.height.toNat + 1) *
          (g.width.toNat * g.height.toNat + 2) + 2 := rfl
    have hM : g.width.toNat * g.height.toNat + 1 ≤
        (g.width.toNat * g.height.toNat + 1) *
          (g.width.toNat * g.height.toNat + 2) :=
      Nat.le_mul_of_pos_right _ (by omega)
    rcases hu with rfl | rfl | rfl | rfl <;>
      · unfold cpos at hvd
        dsimp only at hvd
        have hw : g.width.toNat ≤ g.width.toNat * g.height.toNat ∨
            g.height.toNat ≤ g.width.toNat * g.height.toNat := by
          rcases Nat.eq_zero_or_pos g.height.toNat with h0 | hpos
          · right
            omega
          · left
            exact Nat.le_mul_of_pos_right _ hpos
        rcases Nat.eq_zero_or_pos g.width.toNat with hw0 | hwpos
        · omega
        · have hh : g.height.toNat ≤ g.width.toNat * g.height.toNat :=
            Nat.le_mul_of_pos_left _ hwpos
          have hw' : g.height.toNat = 0 ∨
              g.width.toNat ≤ g.width.toNat * g.height.toNat := by
            rcases Nat.eq_zero_or_pos g.height.toNat with h0 | hpos
            · exact Or.inl h0
            · exact Or.inr (Nat.le_mul_of_pos_right _ hpos)
          rcases hw' with h0 | hle
          · omega
          · omega
  have hst0 : AStarState.mk [(0, s)] [(s, none)] [(s, 0)] =
      AStarState.mk [(0, cpos s u 0)] (corridor_cf s u 0)
        (corridor_cs s u 0) := by
    rw [corridor_cf_zero, corridor_cs_zero, cpos_zero]
  unfold find_path
  dsimp only
  rw [hst0]
  rw [corridor_loop g avoid_bombs s u d hu hcorr (astar_fuel g) 0 0
    (by omega) (by omega)]

theorem astar_inv_init (g : Grid) (avoid_bombs : Bool) (start : Int × Int) :
    astar_inv g avoid_bombs start
      (AStarState.mk [(0, start)] [(start, none)] [(start, 0)]) := by
  refine ⟨?_, ?_, ?_, ?_, ?_⟩
  · intro e he
    simp only [List.mem_singleton] at he
    subst he
    exact ⟨0, by simp [List.lookup]⟩
  · intro q hq
    simp only [List.mem_singleton] at hq
    subst hq
    exact ReachableFrom.refl
  · simp
  · intro q hq
    simp only [List.mem_singleton] at hq
    subst hq
    simp [astar_universe]
  · intro q hq
    simp only [List.mem_singleton] at hq
    subst hq
    refine ⟨[start], by simp, by simp, by simp, by simp, by simp, ?_⟩
    intro i
    have hi : (i : Nat) < 1 := i.2
    refine ⟨0, ?_, by omega⟩
    have hget : (List.get [start] i) = start := by
      rw [List.get_eq_getElem]
      simp
    rw [hget]
    simp [List.lookup]

theorem astar_potential_init (g : Grid) (start : Int × Int) :
    astar_potential g start
      (AStarState.mk [(0, start)] [(start, none)] [(start, 0)]) <
      astar_fuel g := by
  have hb : ∀ x ∈ astar_universe g start,
      cost_or_default [(start, 0)] (g.width.toNat * g.height.toNat + 2) x ≤
        g.width.toNat * g.height.toNat + 2 := by
    intro x _
    unfold cost_or_default
    cases h : List.lookup x [(start, 0)] with
    | none => simp
    | some c =>
      rw [Option.getD_some]
      cases hxs : (x == start) with
      | true =>
        simp [List.lookup, hxs] at h
        omega
      | false =>
        simp [List.lookup, hxs] at h
  have hsum := Finset.sum_le_card_nsmul (astar_universe g start)
    (cost_or_default [(start, 0)] (g.width.toNat * g.height.toNat + 2))
    (g.width.toNat * g.height.toNat + 2) hb
  have hcard := astar_universe_card_le g start
  rw [smul_eq_mul] at hsum
  have hmul : (astar_universe g start).card *
      (g.width.toNat * g.height.toNat + 2) ≤
      (g.width.toNat * g.height.toNat + 1) *
        (g.width.toNat * g.height.toNat + 2) :=
    Nat.mul_le_mul_right _ hcard
  have hfe : astar_fuel g =
      (g.width.toNat * g.height.toNat + 1) *
        (g.width.toNat * g.height.toNat + 2) + 2 := rfl
  unfold astar_potential
  dsimp only
  rw [hfe]
  simp only [List.length_singleton]
  omega

theorem find_path_unreachable (g : Grid) (avoid_bombs : Bool)
    (start goal : Int × Int)
    (h : ¬ ReachableFrom g avoid_bombs start goal) :
    astar_loop g goal avoid_bombs start (astar_fuel g)
      (AStarState.mk [(0, start)] [(start, none)] [(start, 0)]) = some none ∧
    find_path g start goal avoid_bombs = none := by
  have h1 := astar_loop_unreachable g avoid_bombs start goal h (astar_fuel g)
    (AStarState.mk [(0, start)] [(start, none)] [(start, 0)])
    (astar_inv_init g avoid_bombs start)
    (astar_potential_init g start)
  refine ⟨h1, ?_⟩
  unfold find_path
  dsimp only
  rw [h1]

theorem reachable_subset (g : Grid) (avoid_bombs : Bool) (start : Int × Int)
    (S : List (Int × Int)) (hstart : start ∈ S)
    (hclosed : ∀ a ∈ S, ∀ b ∈ astar_get_neighbors g a avoid_bombs, b ∈ S) :
    ∀ x, ReachableFrom g avoid_bombs start x → x ∈ S := by
  intro x h
  induction h with
  | refl => exact hstart
  | step _ hmem ih => exact hclosed _ ih _ hmem

theorem corridorGrid_hcorr : ∀ k : Nat, k ≤ 3 → ∀ n : Int × Int,
    n ∈ astar_get_neighbors corridorGrid (cpos (1, 1) (1, 0) k) true ↔
      (1 ≤ k ∧ n = cpos (1, 1) (1, 0) (k - 1)) ∨
      (k < 3 ∧ n = cpos (1, 1) (1, 0) (k + 1)) := by
  have e0 : cpos ((1 : Int), (1 : Int)) ((1 : Int), (0 : Int)) 0 = (1, 1) := by
    decide
  have e1 : cpos ((1 : Int), (1 : Int)) ((1 : Int), (0 : Int)) 1 = (2, 1) := by
    decide
  have e2 : cpos ((1 : Int), (1 : Int)) ((1 : Int), (0 : Int)) 2 = (3, 1) := by
    decide
  have e3 : cpos ((1 : Int), (1 : Int)) ((1 : Int), (0 : Int)) 3 = (4, 1) := by
    decide
  have e4 : cpos ((1 : Int), (1 : Int)) ((1 : Int), (0 : Int)) 4 = (5, 1) := by
    decide
  have hn0 : astar_get_neighbors corridorGrid (cpos (1, 1) (1, 0) 0) true =
      [(2, 1)] := by decide
  have hn1 : astar_get_neighbors corridorGrid (cpos (1, 1) (1, 0) 1) true =
      [(3, 1), (1, 1)] := by decide
  have hn2 : astar_get_neighbors corridorGrid (cpos (1, 1) (1, 0) 2) true =
      [(4, 1), (2, 1)] := by decide
  have hn3 : astar_get_neighbors corridorGrid (cpos (1, 1) (1, 0) 3) true =
      [(3, 1)] := by decide
  intro k hk n
  interval_cases k
  · rw [hn0]
    simp only [e0, e1]
    simp
  · rw [hn1]
    simp only [e0, e2]
    simp
    tauto
  · rw [hn2]
    simp only [e1, e3]
    simp
    tauto
  · rw [hn3]
    simp only [e2, e4]
    simp

/-- C8: on a grid where `start` and the goal `d ≥ 1` tiles away are joined by
a single straight open corridor (the A* neighbour relation restricted to the
corridor cells is exactly the path graph), `find_path` returns exactly the
corridor, a path of `heuristic start goal + 1` nodes, i.e. Manhattan-distance
many steps; and on any grid whose goal is unreachable from `start` in the
neighbour relation, the search loop empties its frontier within the fuel
bound (it terminates) and `find_path` returns `none`. -/
theorem C8_astar_corridor_and_unreachable
    (g : Grid) (avoid_bombs : Bool) (s u : Int × Int) (d : Nat)
    (hu : u = (1, 0) ∨ u = (-1, 0) ∨ u = (0, 1) ∨ u = (0, -1))
    (hd : 1 ≤ d)
    (hcorr : ∀ k : Nat, k ≤ d → ∀ n : Int × Int,
      n ∈ astar_get_neighbors g (cpos s u k) avoid_bombs ↔
        (1 ≤ k ∧ n = cpos s u (k - 1)) ∨ (k < d ∧ n = cpos s u (k + 1)))
    (g' : Grid) (avoid' : Bool) (start' goal' : Int × Int)
    (hunreach : ¬ ReachableFrom g' avoid' start' goal') :
    (find_path g s (cpos s u d) avoid_bombs = some (corridor_path s u d) ∧
      (corridor_path s u d).length = heuristic s (cpos s u d) + 1) ∧
    (astar_loop g' goal' avoid' start' (astar_fuel g')
        (AStarState.mk [(0, start')] [(start', none)] [(start', 0)]) =
      some none ∧
      find_path g' start' goal' avoid' = none) := by
  refine ⟨⟨corridor_find_path g avoid_bombs s u d hu hd hcorr, ?_⟩,
    find_path_unreachable g' avoid' start' goal' hunreach⟩
  rw [corridor_path_length, heuristic_cpos s u d hu]

theorem C8_astar_corridor_and_unreachable_witness :
    find_path corridorGrid (1, 1) (4, 1) true =
      some [(1, 1), (2, 1), (3, 1), (4, 1)] ∧
    heuristic (1, 1) (4, 1) = 3 ∧
    find_path blockedGoalGrid (1, 1) (4, 1) true = none := by
  have hunreach : ¬ ReachableFrom blockedGoalGrid true (1, 1) (4, 1) := by
    intro h
    have hx := reachable_subset blockedGoalGrid true (1, 1) [(1, 1), (2, 1)]
      (by decide) (by decide) (4, 1) h
    exact absurd hx (by decide)
  have h := C8_astar_corridor_and_unreachable corridorGrid true (1, 1) (1, 0)
    3 (Or.inl rfl) (by omega) corridorGrid_hcorr blockedGoalGrid true (1, 1)
    (4, 1) hunreach
  refine ⟨?_, by decide, ?_⟩
  · have h1 := h.1.1
    rw [show cpos ((1 : Int), (1 : Int)) ((1 : Int), (0 : Int)) 3 = (4, 1)
      from by decide] at h1
    rw [show corridor_path (1, 1) (1, 0) 3 = [(1, 1), (2, 1), (3, 1), (4, 1)]
      from by decide] at h1
    exact h1
  · exact h.2.2
